import Mathlib

/-!
# LawBuddy messaging core — a shallow embedding

This file embeds the message-lifecycle, branching, orchestration and fan-out
code of `Backend/app` (`services/chat_service.py`, `api/v1/websocket.py`,
`websocket/manager.py`) as pure Lean functions, and proves/refutes the spec
claims about them.

Modelling conventions:
* MongoDB ObjectIds, uuid4 stream ids, user ids and chat ids are `Nat`.
  Fresh id generation (`ObjectId()` / `uuid.uuid4()`) is modelled by a
  `next_id` counter in the service state.
* `datetime.utcnow()` timestamps are modelled by the same counter, so later
  writes carry strictly larger timestamps.  The `updated_at` bookkeeping field
  is not represented; since the real code always rewrites `updated_at`,
  Mongo's `modified_count > 0` is modelled as "a document matched the filter".
* The document store is the abstract find/update store of spec §6: an update
  of a dotted path below a `null` sub-document (`conversation_branch`) applies
  to the descriptor when one is present and leaves the document unchanged
  otherwise.
* `async`/`await` and the HTTP layer are erased; operations are state-passing
  functions, and `raise HTTPException` becomes an `Except` error value.
-/

/-- `app/models/chat.py` `MessageStatus`. -/
inductive MessageStatus
  | pending
  | streaming
  | complete
  | failed
  | cancelled
  | regenerating
deriving DecidableEq, Repr

/-- `app/models/chat.py` `MessageRole`. -/
inductive MessageRole
  | user
  | assistant
  | system
deriving DecidableEq, Repr

/-- `app/models/chat.py` `ChatStatus`. -/
inductive ChatStatus
  | active
  | archived
  | deleted
deriving DecidableEq, Repr

/-- `app/models/chat.py` `ConversationBranch` (the `branch_point` timestamp is
not needed by any claim and is dropped). -/
structure ConversationBranch where
  branch_id : Nat
  parent_message_id : Option Nat
  branch_reason : String
  is_active_branch : Bool
deriving DecidableEq, Repr

/-- One entry of a message's `edit_history` list
(`chat_service.py` `regenerate_message`). -/
structure EditEntry where
  version : Nat
  content : String
deriving DecidableEq, Repr

/-- `app/models/chat.py` `Message`, restricted to the fields the claims are
about (AI metadata, formatting and user-interaction counters are dropped). -/
structure Message where
  id : Nat
  chat_session_id : Nat
  user_id : Nat
  role : MessageRole
  content : String
  status : MessageStatus
  timestamp : Nat
  conversation_branch : Option ConversationBranch
  parent_message_id : Option Nat
  child_message_ids : List Nat
  version : Nat
  original_message_id : Option Nat
  edit_history : List EditEntry
  stream_id : Option Nat
  is_streaming : Bool
  partial_content : String
  final_content : String
deriving DecidableEq, Repr

/-- `app/models/chat.py` `ChatSession`, restricted to the fields the service
code reads (`_id`, `user_id`, `status`). -/
structure ChatSession where
  id : Nat
  user_id : Nat
  status : ChatStatus
deriving DecidableEq, Repr

/-- The state owned by `EnhancedChatService`: the two Mongo collections the
claims touch, the two in-memory stream-tracking dicts, and the fresh-id
counter. The tracking dicts map `stream_id` to the tracked `message_id`
(the `chat_id`/`created_at` entries of the Python dict feed only metadata
updates and timeouts, which no claim mentions). -/
structure ServiceState where
  chat_sessions : List ChatSession
  messages : List Message
  pending_messages : List (Nat × Nat)
  streaming_messages : List (Nat × Nat)
  next_id : Nat
deriving DecidableEq, Repr

/-! ## Python dict operations (assoc lists keyed by stream id) -/

/-- `d.get(k)` / `k in d` lookup on a Python dict. -/
def dlookup (l : List (Nat × Nat)) (k : Nat) : Option Nat :=
  (l.find? (fun p => p.1 == k)).map (·.2)

/-- `d[k] = v` on a Python dict (replaces any earlier binding). -/
def dinsert (l : List (Nat × Nat)) (k v : Nat) : List (Nat × Nat) :=
  l.filter (fun p => p.1 != k) ++ [(k, v)]

/-- `d.pop(k, None)` on a Python dict. -/
def derase (l : List (Nat × Nat)) (k : Nat) : List (Nat × Nat) :=
  l.filter (fun p => p.1 != k)

/-! ## Document-store primitives -/

/-- `update_one({"_id": mid}, {"$set": ...})` over the messages collection:
rewrite every document whose `_id` matches (ids are unique in a real
collection; `List.map` keeps the model total without that assumption). -/
def updateMessage (msgs : List Message) (mid : Nat) (f : Message → Message) :
    List Message :=
  msgs.map (fun m => if m.id == mid then f m else m)

/-- Did a document match — i.e. `result.modified_count > 0`, given that the
real updates always rewrite `updated_at`. -/
def messageExists (msgs : List Message) (mid : Nat) : Bool :=
  msgs.any (fun m => m.id == mid)

/-- `find_one({"_id": mid})` over the messages collection. -/
def findMessage (msgs : List Message) (mid : Nat) : Option Message :=
  msgs.find? (fun m => m.id == mid)

/-- Read a message's status. -/
def statusOf (s : ServiceState) (mid : Nat) : Option MessageStatus :=
  (findMessage s.messages mid).map (·.status)

/-- Read a message's display content. -/
def contentOf (s : ServiceState) (mid : Nat) : Option String :=
  (findMessage s.messages mid).map (·.content)

/-- Read a message's streaming buffer. -/
def partialContentOf (s : ServiceState) (mid : Nat) : Option String :=
  (findMessage s.messages mid).map (·.partial_content)

/-- The branch id a message carries, if any. -/
def branchIdOf (m : Message) : Option Nat :=
  m.conversation_branch.map (·.branch_id)

/-- Is the message's branch descriptor present with its active flag set —
the Mongo filter `{"conversation_branch.is_active_branch": True}`, which a
document with `conversation_branch: null` does not match. -/
def branchActive (m : Message) : Bool :=
  match m.conversation_branch with
  | some b => b.is_active_branch
  | none => false

/-- `$set {"conversation_branch.is_active_branch": flag}`: applies to the
descriptor when present, leaves a trunk document unchanged. -/
def setBranchActive (m : Message) (flag : Bool) : Message :=
  { m with conversation_branch :=
      m.conversation_branch.map (fun b => { b with is_active_branch := flag }) }

/-! ## EnhancedChatService operations (`app/services/chat_service.py`) -/

/-- The typed failures of the service layer.  The code raises
`HTTPException(404, "Chat session not found")` for an absent, foreign-owned
or deleted chat and `HTTPException(404, "Message not found")` for a missing
message; `chatDeleted` is the distinct error the spec claims for a deleted
chat and is part of the type only so that claim C8 can be stated. -/
inductive ChatServiceError
  | chatNotFound
  | chatDeleted
  | messageNotFound
deriving DecidableEq, Repr

/-- `EnhancedChatService.get_chat_session` (lines 590-610): a single
`find_one` filtered on `_id`, `user_id` and `status != DELETED`; any miss is
the same 404. -/
def get_chat_session (s : ServiceState) (chat_id user_id : Nat) :
    Option ChatSession :=
  s.chat_sessions.find? (fun c =>
    c.id == chat_id && c.user_id == user_id && c.status != ChatStatus.deleted)

/-- `EnhancedChatService.create_pending_message` (lines 84-165), with the
stream id always freshly generated (the callers in `websocket.py` never pass
one). Returns the inserted message and the new state. -/
def create_pending_message (s : ServiceState) (chat_id user_id : Nat)
    (role : MessageRole) (content : String) :
    Except ChatServiceError (Message × ServiceState) :=
  match get_chat_session s chat_id user_id with
  | none => .error .chatNotFound
  | some _ =>
    let sid := s.next_id
    let mid := s.next_id + 1
    let msg : Message :=
      { id := mid
        chat_session_id := chat_id
        user_id := user_id
        role := role
        content := if role == .user then content else ""
        status := if role == .user then .complete else .pending
        timestamp := s.next_id
        conversation_branch := none
        parent_message_id := none
        child_message_ids := []
        version := 1
        original_message_id := none
        edit_history := []
        stream_id := some sid
        is_streaming := false
        partial_content := ""
        final_content := if role == .user then content else "" }
    let pend :=
      if role == .assistant then dinsert s.pending_messages sid mid
      else s.pending_messages
    .ok (msg,
      { s with
        messages := s.messages ++ [msg]
        pending_messages := pend
        next_id := s.next_id + 2 })

/-- `EnhancedChatService.start_message_streaming` (lines 167-195). -/
def start_message_streaming (s : ServiceState) (stream_id : Nat) :
    Bool × ServiceState :=
  match dlookup s.pending_messages stream_id with
  | none => (false, s)
  | some mid =>
    if messageExists s.messages mid then
      (true,
        { s with
          messages := updateMessage s.messages mid (fun m =>
            { m with status := .streaming, is_streaming := true })
          pending_messages := derase s.pending_messages stream_id
          streaming_messages := dinsert s.streaming_messages stream_id mid })
    else (false, s)

/-- `EnhancedChatService.update_streaming_message` (lines 197-228): read the
current `partial_content`, append the chunk, mirror it into `content`. -/
def update_streaming_message (s : ServiceState) (stream_id : Nat)
    (content_chunk : String) : Bool × ServiceState :=
  match dlookup s.streaming_messages stream_id with
  | none => (false, s)
  | some mid =>
    match findMessage s.messages mid with
    | none => (false, s)
    | some doc =>
      let npc := doc.partial_content ++ content_chunk
      (true,
        { s with
          messages := updateMessage s.messages mid (fun m =>
            { m with partial_content := npc, content := npc }) })

/-- `EnhancedChatService.complete_streaming_message` (lines 230-275): the
tracking entry is popped before the store update. -/
def complete_streaming_message (s : ServiceState) (stream_id : Nat)
    (final_content : String) : Bool × ServiceState :=
  match dlookup s.streaming_messages stream_id with
  | none => (false, s)
  | some mid =>
    if messageExists s.messages mid then
      (true,
        { s with
          streaming_messages := derase s.streaming_messages stream_id
          messages := updateMessage s.messages mid (fun m =>
            { m with
              status := .complete
              content := final_content
              final_content := final_content
              is_streaming := false }) })
    else (false,
      { s with streaming_messages := derase s.streaming_messages stream_id })

/-- `EnhancedChatService.fail_message` (lines 277-307): the target is looked
up in the pending dict first, then the streaming dict; the status becomes
FAILED and the display content is replaced by `"Error: " + reason`; both
tracking entries are popped. -/
def fail_message (s : ServiceState) (stream_id : Nat) (error_message : String) :
    Bool × ServiceState :=
  match (dlookup s.pending_messages stream_id).orElse
      (fun _ => dlookup s.streaming_messages stream_id) with
  | none => (false, s)
  | some mid =>
    (messageExists s.messages mid,
      { s with
        messages := updateMessage s.messages mid (fun m =>
          { m with
            status := .failed
            content := "Error: " ++ error_message
            is_streaming := false })
        pending_messages := derase s.pending_messages stream_id
        streaming_messages := derase s.streaming_messages stream_id })

/-- The orchestrator's in-loop cancellation check (`websocket.py` lines
760-762): once the stream id has been removed from `active_generations`, the
loop calls `fail_message(stream_id, "Generation cancelled")` on its live
service and returns; this is the engine-level step through which a cancel
command actually reaches the store. -/
def cancel_generation (s : ServiceState) (stream_id : Nat) :
    Bool × ServiceState :=
  fail_message s stream_id "Generation cancelled"

/-- `handle_cancel_generation` (`websocket.py` lines 398-441): when the
stream id is among the connection's `active_generations` it is popped, a
fresh `EnhancedChatService(await get_db())` is constructed — sharing the
database but starting with empty `pending_messages` / `streaming_messages`
tracking dicts (`chat_service.py` lines 32-33) — and
`fail_message(stream_id, "Generation cancelled by user")` runs on that
fresh service. The live state keeps its own tracking dicts and sees only
the fresh service's database writes; the fresh dicts die with the local
object. -/
def handle_cancel_generation (s : ServiceState) (stream_id : Nat)
    (active_generations : List Nat) : Bool × ServiceState × List Nat :=
  if stream_id ∈ active_generations then
    let r := fail_message
      { s with pending_messages := [], streaming_messages := [] }
      stream_id "Generation cancelled by user"
    (r.1,
      { s with messages := r.2.messages },
      active_generations.filter (fun x => x != stream_id))
  else (false, s, active_generations)

/-- Python's `new_content or original.content`: `None` and the empty string
both fall back to the original content. -/
def pyOr (a : Option String) (b : String) : String :=
  match a with
  | some x => if x == "" then b else x
  | none => b

/-- `EnhancedChatService.regenerate_message` (lines 309-394). -/
def regenerate_message (s : ServiceState) (message_id user_id : Nat)
    (new_content : Option String) :
    Except ChatServiceError (Message × ServiceState) :=
  match findMessage s.messages message_id with
  | none => .error .messageNotFound
  | some orig =>
    match get_chat_session s orig.chat_session_id user_id with
    | none => .error .chatNotFound
    | some _ =>
      let bid := s.next_id
      let mid := s.next_id + 1
      let sid := s.next_id + 2
      let msg : Message :=
        { id := mid
          chat_session_id := orig.chat_session_id
          user_id := user_id
          role := orig.role
          content := pyOr new_content orig.content
          status := if orig.role == .assistant then .pending else .complete
          timestamp := s.next_id
          conversation_branch := some
            { branch_id := bid
              parent_message_id := some orig.id
              branch_reason := "user_regeneration"
              is_active_branch := true }
          parent_message_id := some orig.id
          child_message_ids := []
          version := orig.version + 1
          original_message_id := some (orig.original_message_id.getD orig.id)
          edit_history := orig.edit_history ++
            [{ version := orig.version, content := orig.content }]
          stream_id := if orig.role == .assistant then some sid else none
          is_streaming := false
          partial_content := ""
          final_content := pyOr new_content orig.content }
      .ok (msg,
        { s with
          messages :=
            updateMessage s.messages orig.id (fun m =>
              { m with child_message_ids := m.child_message_ids ++ [mid] })
            ++ [msg]
          next_id := s.next_id + 3 })

/-- `EnhancedChatService.create_conversation_branch` (lines 396-434):
generates a branch id and deactivates the active branches of the messages
after the parent; it creates no message. -/
def create_conversation_branch (s : ServiceState) (parent_message_id user_id : Nat) :
    Except ChatServiceError (Nat × ServiceState) :=
  match findMessage s.messages parent_message_id with
  | none => .error .messageNotFound
  | some parent =>
    match get_chat_session s parent.chat_session_id user_id with
    | none => .error .chatNotFound
    | some _ =>
      let bid := s.next_id
      .ok (bid,
        { s with
          messages := s.messages.map (fun m =>
            if m.chat_session_id == parent.chat_session_id
                && decide (parent.timestamp < m.timestamp)
                && branchActive m
            then setBranchActive m false else m)
          next_id := s.next_id + 1 })

/-- `EnhancedChatService.switch_conversation_branch` (lines 436-467):
deactivate every branch of the chat, then activate the messages carrying the
requested branch id; the returned Bool is the activation's
`modified_count > 0`. -/
def switch_conversation_branch (s : ServiceState) (chat_id branch_id user_id : Nat) :
    Except ChatServiceError (Bool × ServiceState) :=
  match get_chat_session s chat_id user_id with
  | none => .error .chatNotFound
  | some _ =>
    let deactivated := s.messages.map (fun m =>
      if m.chat_session_id == chat_id then setBranchActive m false else m)
    let activated := deactivated.map (fun m =>
      if m.chat_session_id == chat_id && branchIdOf m == some branch_id
      then setBranchActive m true else m)
    let modified := deactivated.any (fun m =>
      m.chat_session_id == chat_id && branchIdOf m == some branch_id)
    .ok (modified, { s with messages := activated })

/-- Stable insertion of a message into a timestamp-ascending list (the new
element goes after existing equal timestamps). -/
def insertByTimestamp (x : Message) : List Message → List Message
  | [] => [x]
  | y :: ys =>
    if y.timestamp ≤ x.timestamp then y :: insertByTimestamp x ys
    else x :: y :: ys

/-- The store's `.sort("timestamp", 1)`: a stable ascending sort. -/
def sortByTimestamp : List Message → List Message
  | [] => []
  | x :: xs => insertByTimestamp x (sortByTimestamp xs)

/-- `EnhancedChatService.get_active_messages` (lines 612-628): the messages
of the chat whose branch is active or who carry no branch descriptor, in
timestamp order. -/
def get_active_messages (s : ServiceState) (chat_id user_id : Nat) :
    Except ChatServiceError (List Message) :=
  match get_chat_session s chat_id user_id with
  | none => .error .chatNotFound
  | some _ =>
    .ok (sortByTimestamp (s.messages.filter (fun m =>
      m.chat_session_id == chat_id
        && (branchActive m || m.conversation_branch == none))))

/-! ## Connection Registry and Fan-out Broadcaster (`app/websocket/manager.py`) -/

/-- A wire event: the `joined_chat` confirmation sent by `join_chat_room`,
or an opaque broadcast payload standing for any other `WebSocketResponse`. -/
inductive WSEvent
  | joined_chat (chat_id : Nat)
  | payload (n : Nat)
deriving DecidableEq, Repr

/-- One WebSocket transport: whether `send_text` still succeeds, and the
events it has delivered so far. -/
structure Transport where
  alive : Bool
  inbox : List WSEvent
deriving DecidableEq, Repr

/-- `websocket.send_text`: delivery on a live transport, an exception on a
dead one. -/
def send_text (t : Transport) (ev : WSEvent) : Except String Transport :=
  if t.alive then .ok { t with inbox := t.inbox ++ [ev] }
  else .error "transport failed"

/-- Assoc-list lookup keyed by `Nat` (shared by the manager's dicts). -/
def alookup {α : Type} (l : List (Nat × α)) (k : Nat) : Option α :=
  (l.find? (fun p => p.1 == k)).map (·.2)

/-- Python dict assignment `d[k] = v`. -/
def ainsert {α : Type} (l : List (Nat × α)) (k : Nat) (v : α) : List (Nat × α) :=
  l.filter (fun p => p.1 != k) ++ [(k, v)]

/-- `ConnectionManager` state.  The stored `WebSocket` objects live in the
`sockets` table keyed by connection id; `active_connections` keeps, per user,
the connection ids of that user's dict (`{user_id: {connection_id: ws}}`);
`chat_rooms` is `{chat_id: {user_id: connection_id}}`; `connection_users` is
`{connection_id: user_id}`.  Typing indicators are not modelled (no claim
touches them). -/
structure ConnManager where
  active_connections : List (Nat × List Nat)
  chat_rooms : List (Nat × List (Nat × Nat))
  connection_users : List (Nat × Nat)
  sockets : List (Nat × Transport)
deriving DecidableEq, Repr

/-- `ConnectionManager._get_user_connection`: the websocket registered for
`(user_id, connection_id)`, if any. -/
def get_user_connection (m : ConnManager) (user_id connection_id : Nat) :
    Option Transport :=
  match alookup m.active_connections user_id with
  | none => none
  | some conns =>
    if connection_id ∈ conns then alookup m.sockets connection_id else none

/-- `ConnectionManager.send_to_connection` (lines 109-114): the send is tried
and any transport exception is logged and swallowed. -/
def send_to_connection (m : ConnManager) (connection_id : Nat) (ev : WSEvent) :
    ConnManager :=
  match alookup m.sockets connection_id with
  | none => m
  | some t =>
    match send_text t ev with
    | .ok t' => { m with sockets := ainsert m.sockets connection_id t' }
    | .error _ => m

/-- `ConnectionManager.join_chat_room` (lines 81-98): room assignment
`chat_rooms[chat_id][user_id] = connection_id`, then a `joined_chat`
confirmation to the joining connection when it is registered. -/
def join_chat_room (m : ConnManager) (chat_id user_id connection_id : Nat) :
    ConnManager :=
  match get_user_connection
      { m with
        chat_rooms :=
          ainsert m.chat_rooms chat_id
            (ainsert ((alookup m.chat_rooms chat_id).getD []) user_id connection_id) }
      user_id connection_id with
  | some _ =>
    send_to_connection
      { m with
        chat_rooms :=
          ainsert m.chat_rooms chat_id
            (ainsert ((alookup m.chat_rooms chat_id).getD []) user_id connection_id) }
      connection_id (.joined_chat chat_id)
  | none =>
    { m with
      chat_rooms :=
        ainsert m.chat_rooms chat_id
          (ainsert ((alookup m.chat_rooms chat_id).getD []) user_id connection_id) }

/-- The body of `broadcast_to_chat`'s `for` loop over the room members. -/
def broadcastList (m : ConnManager) (ev : WSEvent) (exclude_user : Option Nat) :
    List (Nat × Nat) → ConnManager
  | [] => m
  | (user_id, connection_id) :: rest =>
    if exclude_user == some user_id then broadcastList m ev exclude_user rest
    else
      match get_user_connection m user_id connection_id with
      | some _ => broadcastList (send_to_connection m connection_id ev) ev exclude_user rest
      | none => broadcastList m ev exclude_user rest

/-- `ConnectionManager.broadcast_to_chat` (lines 132-143). -/
def broadcast_to_chat (m : ConnManager) (chat_id : Nat) (ev : WSEvent)
    (exclude_user : Option Nat) : ConnManager :=
  match alookup m.chat_rooms chat_id with
  | none => m
  | some members => broadcastList m ev exclude_user members

/-! ## Generation Orchestrator (`app/api/v1/websocket.py` lines 698-906) -/

/-- One event of the engine's chunk stream
(`ai_service.generate_streaming_response`). -/
inductive GenEvent
  | chunk (text : String)
  | complete (text : String)
  | error (reason : String)
deriving DecidableEq, Repr

/-- How the engine's iterator ends when no terminal event broke the loop:
it is simply exhausted, or it raises into the orchestrator's `except` block. -/
inductive StreamEnd
  | exhausted
  | raised
deriving DecidableEq, Repr

/-- The `async for` loop of `generate_ai_response_with_streaming`: per
iteration the cancellation set is checked, then the event dispatched; a
`complete`/`error` event breaks the loop; an exhausted iterator falls out of
the loop with no further call; an engine exception lands in the `except`
block, which fails the message. `ag` is the connection's
`active_generations` set, holding stream ids. -/
def orchLoop (sid : Nat) :
    List GenEvent → StreamEnd → ServiceState → List Nat →
    ServiceState × List Nat
  | [], .exhausted, s, ag => (s, ag)
  | [], .raised, s, ag =>
    ((fail_message s sid "Generation error: engine exception").2,
      ag.filter (fun x => x != sid))
  | e :: rest, ending, s, ag =>
    if sid ∈ ag then
      match e with
      | .chunk t =>
        orchLoop sid rest ending (update_streaming_message s sid t).2 ag
      | .complete t =>
        ((complete_streaming_message s sid t).2, ag.filter (fun x => x != sid))
      | .error r =>
        ((fail_message s sid r).2, ag.filter (fun x => x != sid))
    else ((fail_message s sid "Generation cancelled").2, ag)

/-- `generate_ai_response_with_streaming` in the streaming branch with no
pre-existing stream id: create the pending assistant message, register the
generation, begin streaming, then run the loop. When `create_pending_message`
raises, the `except` block finds `stream_id` still unset and does nothing. -/
def generate_ai_response_with_streaming (s : ServiceState) (chat_id user_id : Nat)
    (events : List GenEvent) (ending : StreamEnd) : ServiceState × List Nat :=
  match create_pending_message s chat_id user_id .assistant "" with
  | .error _ => (s, [])
  | .ok (msg, s1) =>
    let sid := msg.stream_id.getD 0
    let ag := [sid]
    let s2 := (start_message_streaming s1 sid).2
    orchLoop sid events ending s2 ag

/-! ## Derived notions used by the claims -/

/-- The terminal statuses of §4.1. -/
def isTerminal : MessageStatus → Bool
  | .complete => true
  | .failed => true
  | .cancelled => true
  | _ => false

/-- The legal edges of the §4.1 state machine, reflexivity included
(a step that does not change the status traverses no edge). -/
def legalStep (a b : MessageStatus) : Bool :=
  a == b
    || (a == .pending && b == .streaming)
    || (a == .streaming && (b == .complete || b == .failed || b == .cancelled))
    || (a == .pending && (b == .failed || b == .cancelled))

/-- The Message Lifecycle Engine operations named by claim C1. -/
inductive LifecycleOp
  | startStreaming (sid : Nat)
  | appendChunk (sid : Nat) (chunk : String)
  | completeMsg (sid : Nat) (final : String)
  | failMsg (sid : Nat) (err : String)
  | cancelMsg (sid : Nat)
deriving DecidableEq, Repr

/-- Dispatch a lifecycle operation. -/
def runOp (s : ServiceState) : LifecycleOp → Bool × ServiceState
  | .startStreaming sid => start_message_streaming s sid
  | .appendChunk sid c => update_streaming_message s sid c
  | .completeMsg sid f => complete_streaming_message s sid f
  | .failMsg sid e => fail_message s sid e
  | .cancelMsg sid => cancel_generation s sid

/-- The stream id a lifecycle operation addresses. -/
def opStreamId : LifecycleOp → Nat
  | .startStreaming sid => sid
  | .appendChunk sid _ => sid
  | .completeMsg sid _ => sid
  | .failMsg sid _ => sid
  | .cancelMsg sid => sid

/-- The service-state sanity invariant the running system maintains:
message ids are unique, a stream id belongs to at most one message, and each
tracking entry points at an existing message in the matching phase. -/
def Wf (s : ServiceState) : Prop :=
  (s.messages.map (·.id)).Nodup
    ∧ (∀ m ∈ s.messages, ∀ m' ∈ s.messages, ∀ sid : Nat,
        m.stream_id = some sid → m'.stream_id = some sid → m.id = m'.id)
    ∧ (∀ e ∈ s.pending_messages, ∃ m ∈ s.messages,
        m.id = e.2 ∧ m.stream_id = some e.1 ∧ m.status = .pending)
    ∧ (∀ e ∈ s.streaming_messages, ∃ m ∈ s.messages,
        m.id = e.2 ∧ m.stream_id = some e.1 ∧ m.status = .streaming)

/-- The branch ids of a chat whose active flag is set. -/
def activeBranchIds (s : ServiceState) (chat_id : Nat) : List Nat :=
  (s.messages.filterMap (fun m =>
    if m.chat_session_id == chat_id && branchActive m then branchIdOf m
    else none)).dedup

/-- §3's branch invariant: at most one active branch id per chat session. -/
def atMostOneActiveBranch (s : ServiceState) (chat_id : Nat) : Bool :=
  decide ((activeBranchIds s chat_id).length ≤ 1)

/-- Apply a list of engine chunks to a stream, in order, through
`update_streaming_message`. -/
def applyChunks (s : ServiceState) (sid : Nat) : List String → ServiceState
  | [] => s
  | c :: cs => applyChunks (update_streaming_message s sid c).2 sid cs

/-- Is this engine event a terminal one (a `complete` or `error`, which
breaks the orchestrator's loop)? -/
def isTerminalEvent : GenEvent → Bool
  | .chunk _ => false
  | .complete _ => true
  | .error _ => true

/-! ## Concrete scenario states for the counterexamples and witnesses -/

/-- A chat owned by user 7. -/
def chat1 : ChatSession := { id := 1, user_id := 7, status := .active }

/-- A store holding only `chat1`. -/
def baseState : ServiceState :=
  { chat_sessions := [chat1]
    messages := []
    pending_messages := []
    streaming_messages := []
    next_id := 10 }

/-- Extract the post-state of a service call, with a fallback for the error
branch (never taken in the concrete scenarios below). -/
def okState (r : Except ChatServiceError (Message × ServiceState))
    (fallback : ServiceState) : ServiceState :=
  match r with
  | .ok (_, s) => s
  | .error _ => fallback

/-- A pending assistant generation in `chat1`: message 11, stream 10. -/
def cexPending : ServiceState :=
  okState (create_pending_message baseState 1 7 .assistant "") baseState

/-- ... the stream started ... -/
def cexStreaming : ServiceState := (start_message_streaming cexPending 10).2

/-- ... two of the five scenario chunks applied ... -/
def cexChunks : ServiceState :=
  (update_streaming_message
    (update_streaming_message cexStreaming 10 "Fine ").2 10 "1000").2

/-- ... the user's cancel command handled while stream 10 is the active
generation: the handler pops the id but, running `fail_message` on a fresh
service with empty tracking dicts, persists nothing ... -/
def cexCancelCmd : Bool × ServiceState × List Nat :=
  handle_cancel_generation cexChunks 10 [10]

/-- ... and the orchestrator, observing the dropped id at the next engine
chunk, fails the message on its live service. -/
def cexCancelled : ServiceState :=
  (orchLoop 10 [.chunk "500"] .exhausted cexCancelCmd.2.1 cexCancelCmd.2.2).1

/-- A completed assistant answer, ready to be regenerated. -/
def cexAssistantDone : Message :=
  { id := 3
    chat_session_id := 1
    user_id := 7
    role := .assistant
    content := "old answer"
    status := .complete
    timestamp := 1
    conversation_branch := none
    parent_message_id := none
    child_message_ids := []
    version := 1
    original_message_id := none
    edit_history := []
    stream_id := none
    is_streaming := false
    partial_content := ""
    final_content := "old answer" }

/-- `chat1` holding the completed assistant answer. -/
def cexRegenBase : ServiceState := { baseState with messages := [cexAssistantDone] }

/-- A user message in `chat1` (message 11), then edited twice through
`regenerate_message`: after the first edit one branch is active, after the
second two distinct branch ids are active simultaneously. -/
def cexUserMsg : ServiceState :=
  okState (create_pending_message baseState 1 7 .user "hello") baseState

/-- First regeneration of message 11 (creates branch 12, message 13). -/
def cexRegen1 : ServiceState :=
  okState (regenerate_message cexUserMsg 11 7 (some "edit one")) cexUserMsg

/-- Second regeneration of message 11 (creates branch 15, message 16). -/
def cexRegen2 : ServiceState :=
  okState (regenerate_message cexRegen1 11 7 (some "edit two")) cexRegen1

/-- The state of `cexRegen2` (two active branches) after switching chat 1 to
branch 12. -/
def cexSwitched : ServiceState :=
  match switch_conversation_branch cexRegen2 1 12 7 with
  | .ok (_, s) => s
  | .error _ => cexRegen2

/-- `chat1` soft-deleted, owned by user 7. -/
def cexDeletedChat : ServiceState :=
  { baseState with chat_sessions := [{ id := 1, user_id := 7, status := .deleted }] }

/-- Two users in room 5: Alice (user 1) on connection 10 whose transport has
failed, Bob (user 2) on live connection 20. -/
def cexMgr : ConnManager :=
  { active_connections := [(1, [10]), (2, [20])]
    chat_rooms := [(5, [(1, 10), (2, 20)])]
    connection_users := [(10, 1), (20, 2)]
    sockets := [(10, { alive := false, inbox := [] }),
                (20, { alive := true, inbox := [] })] }

/-- The room broadcast of claim C9 against `cexMgr`. -/
def cexMgrAfter : ConnManager := broadcast_to_chat cexMgr 5 (.payload 99) none

/-! ## Counterexample theorems -/

/-- C2 counterexample: with stream 10 in flight after the chunks "Fine "
and "1000" were applied, the user's cancel command returns False and
persists nothing — the fresh service's tracking dicts are empty, so its
`fail_message` misses, and message 11 is still STREAMING. The message is
terminated only when the orchestrator observes the dropped id at the next
engine chunk, and it then ends FAILED — not CANCELLED — with display
content equal to the bare failure notice `"Error: Generation cancelled"`,
not to the applied chunks followed by a notice; the chunks survive only in
the `partial_content` buffer. -/
theorem C2_cancel_counterexample :
    cexCancelCmd.1 = false
      ∧ cexCancelCmd.2.1 = cexChunks
      ∧ statusOf cexChunks 11 = some .streaming
      ∧ statusOf cexCancelled 11 = some .failed
      ∧ statusOf cexCancelled 11 ≠ some .cancelled
      ∧ contentOf cexCancelled 11 = some "Error: Generation cancelled"
      ∧ partialContentOf cexCancelled 11 = some "Fine 1000" := by
  refine ⟨rfl, rfl, rfl, rfl, by decide, rfl, rfl⟩

/-- C4 counterexample: regenerating the completed assistant message 3 with
`new_content` supplied yields a message whose status is PENDING, not the
COMPLETE the claim requires for a supplied `newContent`; the code keys the
status on the original message's role, not on the presence of new content. -/
theorem C4_regenerate_counterexample :
    (regenerate_message cexRegenBase 3 7 (some "please redo")).toOption.map
        (fun p => p.1.status) = some MessageStatus.pending
      ∧ MessageStatus.pending ≠ MessageStatus.complete := by
  exact ⟨rfl, by decide⟩

/-- C5 counterexample: after one edit of message 11 exactly one branch is
active, but a second `regenerate_message` call activates a fresh branch
without deactivating the first, leaving two active branch ids in chat 1. -/
theorem C5_active_branch_counterexample :
    atMostOneActiveBranch cexRegen1 1 = true
      ∧ atMostOneActiveBranch cexRegen2 1 = false
      ∧ activeBranchIds cexRegen2 1 = [12, 15] := by
  refine ⟨rfl, rfl, rfl⟩

/-- C7 counterexample: an engine stream that produces one chunk and is then
exhausted with no terminal event leaves assistant message 11 stuck at
STREAMING — `generate_ai_response_with_streaming` has no finalization after
its loop. -/
theorem C7_orchestrator_counterexample :
    statusOf (generate_ai_response_with_streaming baseState 1 7
        [.chunk "Fine "] .exhausted).1 11 = some .streaming
      ∧ isTerminal .streaming = false := by
  exact ⟨rfl, rfl⟩

/-- C8 counterexample: for a chat that exists, is owned by the caller and is
soft-deleted, `create_pending_message` fails with the same `ChatNotFound` it
uses for an absent chat — no distinct `ChatDeleted` error is produced. -/
theorem C8_chat_errors_counterexample :
    create_pending_message cexDeletedChat 1 7 .user "hi" = .error .chatNotFound
      ∧ ChatServiceError.chatNotFound ≠ ChatServiceError.chatDeleted := by
  exact ⟨rfl, by decide⟩

/-- C9 counterexample: broadcasting to room 5, where Alice's connection 10
has a failed transport, still delivers the event to Bob's connection 20 and
raises no error, but performs no registry cleanup: connection 10 stays in
`active_connections`, in the room, and in `connection_users`. -/
theorem C9_broadcast_counterexample :
    (alookup cexMgrAfter.sockets 20).map (·.inbox) = some [.payload 99]
      ∧ cexMgrAfter.active_connections = [(1, [10]), (2, [20])]
      ∧ cexMgrAfter.chat_rooms = [(5, [(1, 10), (2, 20)])]
      ∧ cexMgrAfter.connection_users = [(10, 1), (20, 2)] := by
  refine ⟨rfl, rfl, rfl, rfl⟩

/-! ## Dictionary lemmas -/

theorem dlookup_eq_none_iff (l : List (Nat × Nat)) (k : Nat) :
    dlookup l k = none ↔ ∀ x ∈ l, x.1 ≠ k := by
  simp [dlookup, List.find?_eq_none]

theorem dlookup_derase_self (l : List (Nat × Nat)) (k : Nat) :
    dlookup (derase l k) k = none := by
  rw [dlookup_eq_none_iff]
  intro x hx
  have := (List.mem_filter.mp hx).2
  simpa using this

theorem dlookup_derase_none (l : List (Nat × Nat)) (k k' : Nat)
    (h : dlookup l k = none) : dlookup (derase l k') k = none := by
  rw [dlookup_eq_none_iff] at h ⊢
  intro x hx
  exact h x (List.mem_filter.mp hx).1

theorem dlookup_dinsert_self (l : List (Nat × Nat)) (k v : Nat) :
    dlookup (dinsert l k v) k = some v := by
  induction l with
  | nil => simp [dinsert, dlookup]
  | cons p l ih =>
    by_cases h : p.1 = k
    · simp only [dinsert, List.filter_cons] at ih ⊢
      simpa [h] using ih
    · simp [dinsert, dlookup, h]

theorem dlookup_dinsert_none (l : List (Nat × Nat)) (k' v k : Nat)
    (hne : k ≠ k') (h : dlookup l k = none) :
    dlookup (dinsert l k' v) k = none := by
  rw [dlookup_eq_none_iff] at h ⊢
  intro x hx
  rcases List.mem_append.mp hx with hx | hx
  · exact h x (List.mem_filter.mp hx).1
  · have : x = (k', v) := by simpa using hx
    subst this
    exact fun hk => hne hk.symm

theorem dlookup_some_mem (l : List (Nat × Nat)) (k v : Nat)
    (h : dlookup l k = some v) : (k, v) ∈ l := by
  induction l with
  | nil => simp [dlookup] at h
  | cons p l ih =>
    by_cases hp : p.1 = k
    · obtain ⟨p1, p2⟩ := p
      subst hp
      simp [dlookup, List.find?_cons_of_pos] at h
      subst h
      exact List.mem_cons_self _ _
    · simp only [dlookup, List.find?_cons_of_neg, hp] at h
      refine List.mem_cons_of_mem _ (ih ?_)
      simpa [dlookup, List.find?_cons_of_neg, hp] using h

/-! ## Stream-tracking facts behind claims C1 and C3 -/

/-- A stream id that neither tracking dict knows. -/
def Untracked (s : ServiceState) (sid : Nat) : Prop :=
  dlookup s.pending_messages sid = none
    ∧ dlookup s.streaming_messages sid = none

theorem update_streaming_message_untracked (s : ServiceState) (sid : Nat)
    (chunk : String) (h : dlookup s.streaming_messages sid = none) :
    update_streaming_message s sid chunk = (false, s) := by
  simp [update_streaming_message, h]

theorem complete_streaming_message_untracked (s : ServiceState) (sid : Nat)
    (final : String) (h : dlookup s.streaming_messages sid = none) :
    complete_streaming_message s sid final = (false, s) := by
  simp [complete_streaming_message, h]

theorem start_message_streaming_untracked (s : ServiceState) (sid : Nat)
    (h : dlookup s.pending_messages sid = none) :
    start_message_streaming s sid = (false, s) := by
  simp [start_message_streaming, h]

theorem fail_message_untracked (s : ServiceState) (sid : Nat) (err : String)
    (h : Untracked s sid) : fail_message s sid err = (false, s) := by
  simp [fail_message, h.1, h.2, Option.orElse]

/-- After `fail_message` (hence after a cancel) the stream id is gone from
both tracking dicts, whatever the starting state. -/
theorem untracked_after_fail (s : ServiceState) (sid : Nat) (err : String) :
    Untracked (fail_message s sid err).2 sid := by
  unfold fail_message
  cases hp : dlookup s.pending_messages sid with
  | some mid =>
    simp only [hp, Option.orElse, Option.some_orElse]
    exact ⟨dlookup_derase_self _ _, dlookup_derase_self _ _⟩
  | none =>
    cases hs : dlookup s.streaming_messages sid with
    | some mid =>
      simp only [hp, hs, Option.orElse]
      exact ⟨dlookup_derase_self _ _, dlookup_derase_self _ _⟩
    | none =>
      simp only [hp, hs, Option.orElse]
      exact ⟨hp, hs⟩

/-- No lifecycle operation resurrects an untracked stream id. -/
theorem untracked_runOp (s : ServiceState) (sid : Nat) (op : LifecycleOp)
    (h : Untracked s sid) : Untracked (runOp s op).2 sid := by
  obtain ⟨hp, hs⟩ := h
  cases op with
  | startStreaming sid' =>
    simp only [runOp]
    unfold start_message_streaming
    split
    next => exact ⟨hp, hs⟩
    next mid heq =>
      have hne : sid ≠ sid' := by
        intro hEq
        rw [← hEq, hp] at heq
        exact Option.noConfusion heq
      split
      next => exact ⟨dlookup_derase_none _ _ _ hp, dlookup_dinsert_none _ _ _ _ hne hs⟩
      next => exact ⟨hp, hs⟩
  | appendChunk sid' c =>
    simp only [runOp]
    unfold update_streaming_message
    split
    next => exact ⟨hp, hs⟩
    next mid heq =>
      split
      next => exact ⟨hp, hs⟩
      next => exact ⟨hp, hs⟩
  | completeMsg sid' f =>
    simp only [runOp]
    unfold complete_streaming_message
    split
    next => exact ⟨hp, hs⟩
    next mid heq =>
      split
      next => exact ⟨hp, dlookup_derase_none _ _ _ hs⟩
      next => exact ⟨hp, dlookup_derase_none _ _ _ hs⟩
  | failMsg sid' e =>
    simp only [runOp]
    unfold fail_message
    split
    next => exact ⟨hp, hs⟩
    next mid heq =>
      exact ⟨dlookup_derase_none _ _ _ hp, dlookup_derase_none _ _ _ hs⟩
  | cancelMsg sid' =>
    simp only [runOp]
    unfold cancel_generation fail_message
    split
    next => exact ⟨hp, hs⟩
    next mid heq =>
      exact ⟨dlookup_derase_none _ _ _ hp, dlookup_derase_none _ _ _ hs⟩

theorem untracked_foldl (sid : Nat) (ops : List LifecycleOp) (s : ServiceState)
    (h : Untracked s sid) :
    Untracked (ops.foldl (fun t op => (runOp t op).2) s) sid := by
  induction ops generalizing s with
  | nil => exact h
  | cons op ops ih => exact ih _ (untracked_runOp s sid op h)

/-- C3: once a stream id has been cancelled, every later
`update_streaming_message` or `complete_streaming_message` call for it —
even after any further lifecycle operations on any streams — returns false
and leaves the store untouched, so persisted content is stable. -/
theorem C3_cancel_absorbing (s : ServiceState) (sid : Nat)
    (ops : List LifecycleOp) (chunk final : String) :
    update_streaming_message
        (ops.foldl (fun t op => (runOp t op).2) (cancel_generation s sid).2)
        sid chunk
      = (false, ops.foldl (fun t op => (runOp t op).2) (cancel_generation s sid).2)
    ∧ complete_streaming_message
        (ops.foldl (fun t op => (runOp t op).2) (cancel_generation s sid).2)
        sid final
      = (false, ops.foldl (fun t op => (runOp t op).2) (cancel_generation s sid).2) := by
  have h : Untracked
      (ops.foldl (fun t op => (runOp t op).2) (cancel_generation s sid).2) sid :=
    untracked_foldl sid ops _ (untracked_after_fail s sid _)
  exact ⟨update_streaming_message_untracked _ _ _ h.2,
    complete_streaming_message_untracked _ _ _ h.2⟩

/-! ## Facts about `updateMessage` -/

theorem mem_updateMessage {l : List Message} {mid : Nat} {f : Message → Message}
    {m' : Message} (h : m' ∈ updateMessage l mid f) :
    (∃ a ∈ l, a.id = mid ∧ m' = f a) ∨ (∃ a ∈ l, a.id ≠ mid ∧ m' = a) := by
  obtain ⟨a, ha, hEq⟩ := List.mem_map.mp h
  by_cases hid : a.id = mid
  · exact Or.inl ⟨a, ha, hid, by rw [← hEq, if_pos (by simp [hid])]⟩
  · exact Or.inr ⟨a, ha, hid, by rw [← hEq, if_neg (by simp [hid])]⟩

theorem updateMessage_mem_of_ne {l : List Message} {mid : Nat}
    {f : Message → Message} {a : Message} (h : a ∈ l) (hne : a.id ≠ mid) :
    a ∈ updateMessage l mid f := by
  have h2 := List.mem_map_of_mem (fun m => if m.id == mid then f m else m) h
  dsimp only at h2
  rw [if_neg (by simp [hne])] at h2
  exact h2

theorem updateMessage_mem_of_eq {l : List Message} {mid : Nat}
    {f : Message → Message} {a : Message} (h : a ∈ l) (heq : a.id = mid) :
    f a ∈ updateMessage l mid f := by
  have h2 := List.mem_map_of_mem (fun m => if m.id == mid then f m else m) h
  dsimp only at h2
  rw [if_pos (by simp [heq])] at h2
  exact h2

theorem updateMessage_map_id {l : List Message} {mid : Nat}
    {f : Message → Message} (hf : ∀ m, (f m).id = m.id) :
    (updateMessage l mid f).map (·.id) = l.map (·.id) := by
  unfold updateMessage
  rw [List.map_map]
  apply List.map_congr_left
  intro a _
  by_cases h : a.id = mid
  · simp [h, hf]
  · simp [h]

theorem nodup_ids_updateMessage {l : List Message} {mid : Nat}
    {f : Message → Message} (hf : ∀ m, (f m).id = m.id)
    (h : (l.map (·.id)).Nodup) : ((updateMessage l mid f).map (·.id)).Nodup := by
  rw [updateMessage_map_id hf]
  exact h

theorem stream_uniq_updateMessage {l : List Message} {mid : Nat}
    {f : Message → Message}
    (hfid : ∀ m, (f m).id = m.id) (hfs : ∀ m, (f m).stream_id = m.stream_id)
    (huniq : ∀ a ∈ l, ∀ b ∈ l, ∀ sid0 : Nat,
      a.stream_id = some sid0 → b.stream_id = some sid0 → a.id = b.id) :
    ∀ a ∈ updateMessage l mid f, ∀ b ∈ updateMessage l mid f, ∀ sid0 : Nat,
      a.stream_id = some sid0 → b.stream_id = some sid0 → a.id = b.id := by
  intro a ha b hb sid0 hsa hsb
  have hA : ∃ a0 ∈ l, a.id = a0.id ∧ a.stream_id = a0.stream_id := by
    rcases mem_updateMessage ha with ⟨a0, ha0, _, hEq⟩ | ⟨a0, ha0, _, hEq⟩
    · exact ⟨a0, ha0, by rw [hEq, hfid], by rw [hEq, hfs]⟩
    · exact ⟨a0, ha0, by rw [hEq], by rw [hEq]⟩
  have hB : ∃ b0 ∈ l, b.id = b0.id ∧ b.stream_id = b0.stream_id := by
    rcases mem_updateMessage hb with ⟨b0, hb0, _, hEq⟩ | ⟨b0, hb0, _, hEq⟩
    · exact ⟨b0, hb0, by rw [hEq, hfid], by rw [hEq, hfs]⟩
    · exact ⟨b0, hb0, by rw [hEq], by rw [hEq]⟩
  obtain ⟨a0, ha0, haid, hasid⟩ := hA
  obtain ⟨b0, hb0, hbid, hbsid⟩ := hB
  rw [haid, hbid]
  refine huniq a0 ha0 b0 hb0 sid0 ?_ ?_
  · rw [← hasid]
    exact hsa
  · rw [← hbsid]
    exact hsb

/-! ## Well-formedness is preserved by the lifecycle operations -/

theorem wf_start_message_streaming (s : ServiceState) (sid : Nat) (hwf : Wf s) :
    Wf (start_message_streaming s sid).2 := by
  obtain ⟨hnd, huniq, hpend, hstr⟩ := hwf
  have hinj : ∀ a ∈ s.messages, ∀ b ∈ s.messages, a.id = b.id → a = b :=
    fun a ha b hb hab => List.inj_on_of_nodup_map hnd ha hb hab
  unfold start_message_streaming
  split
  next => exact ⟨hnd, huniq, hpend, hstr⟩
  next mid heq =>
    split
    next hex =>
      obtain ⟨mP, hmPmem, hmPid, hmPsid, hmPst⟩ :=
        hpend (sid, mid) (dlookup_some_mem _ _ _ heq)
      dsimp only
      refine ⟨?_, ?_, ?_, ?_⟩
      · apply nodup_ids_updateMessage
        · intro m
          rfl
        · exact hnd
      · apply stream_uniq_updateMessage
        · intro m
          rfl
        · intro m
          rfl
        · exact huniq
      · intro e he
        have he' : e ∈ s.pending_messages := List.mem_of_mem_filter he
        obtain ⟨mE, hmE, hEid, hEsid, hEst⟩ := hpend e he'
        have hne : mE.id ≠ mid := by
          intro hc
          have hEP : mE = mP := hinj mE hmE mP hmPmem (hc.trans hmPid.symm)
          have hkey1 : e.1 = sid := by
            rw [hEP, hmPsid] at hEsid
            exact (Option.some.inj hEsid).symm
          have hkey := (List.mem_filter.mp he).2
          simp [hkey1] at hkey
        exact ⟨mE, updateMessage_mem_of_ne hmE hne, hEid, hEsid, hEst⟩
      · intro e he
        rcases List.mem_append.mp he with he | he
        · have he' : e ∈ s.streaming_messages := List.mem_of_mem_filter he
          obtain ⟨mE, hmE, hEid, hEsid, hEst⟩ := hstr e he'
          have hne : mE.id ≠ mid := by
            intro hc
            have hEP : mE = mP := hinj mE hmE mP hmPmem (hc.trans hmPid.symm)
            rw [hEP, hmPst] at hEst
            exact MessageStatus.noConfusion hEst
          exact ⟨mE, updateMessage_mem_of_ne hmE hne, hEid, hEsid, hEst⟩
        · have heS : e = (sid, mid) := by simpa using he
          subst heS
          exact ⟨{ mP with status := .streaming, is_streaming := true },
            updateMessage_mem_of_eq hmPmem hmPid,
            by simp [hmPid], by simp [hmPsid], rfl⟩
    next hex => exact ⟨hnd, huniq, hpend, hstr⟩

theorem wf_update_streaming_message (s : ServiceState) (sid : Nat) (c : String)
    (hwf : Wf s) : Wf (update_streaming_message s sid c).2 := by
  obtain ⟨hnd, huniq, hpend, hstr⟩ := hwf
  unfold update_streaming_message
  split
  next => exact ⟨hnd, huniq, hpend, hstr⟩
  next mid heq =>
    split
    next => exact ⟨hnd, huniq, hpend, hstr⟩
    next doc hdoc =>
      dsimp only
      refine ⟨?_, ?_, ?_, ?_⟩
      · apply nodup_ids_updateMessage
        · intro m
          rfl
        · exact hnd
      · apply stream_uniq_updateMessage
        · intro m
          rfl
        · intro m
          rfl
        · exact huniq
      · intro e he
        obtain ⟨mE, hmE, hEid, hEsid, hEst⟩ := hpend e he
        by_cases h : mE.id = mid
        · exact ⟨_, updateMessage_mem_of_eq hmE h, by simp [hEid], by simp [hEsid],
            by simp [hEst]⟩
        · exact ⟨mE, updateMessage_mem_of_ne hmE h, hEid, hEsid, hEst⟩
      · intro e he
        obtain ⟨mE, hmE, hEid, hEsid, hEst⟩ := hstr e he
        by_cases h : mE.id = mid
        · exact ⟨_, updateMessage_mem_of_eq hmE h, by simp [hEid], by simp [hEsid],
            by simp [hEst]⟩
        · exact ⟨mE, updateMessage_mem_of_ne hmE h, hEid, hEsid, hEst⟩

theorem wf_complete_streaming_message (s : ServiceState) (sid : Nat)
    (f : String) (hwf : Wf s) : Wf (complete_streaming_message s sid f).2 := by
  obtain ⟨hnd, huniq, hpend, hstr⟩ := hwf
  have hinj : ∀ a ∈ s.messages, ∀ b ∈ s.messages, a.id = b.id → a = b :=
    fun a ha b hb hab => List.inj_on_of_nodup_map hnd ha hb hab
  unfold complete_streaming_message
  split
  next => exact ⟨hnd, huniq, hpend, hstr⟩
  next mid heq =>
    obtain ⟨mS, hmSmem, hmSid, hmSsid, hmSst⟩ :=
      hstr (sid, mid) (dlookup_some_mem _ _ _ heq)
    split
    next hex =>
      dsimp only
      refine ⟨?_, ?_, ?_, ?_⟩
      · apply nodup_ids_updateMessage
        · intro m
          rfl
        · exact hnd
      · apply stream_uniq_updateMessage
        · intro m
          rfl
        · intro m
          rfl
        · exact huniq
      · intro e he
        obtain ⟨mE, hmE, hEid, hEsid, hEst⟩ := hpend e he
        have hne : mE.id ≠ mid := by
          intro hc
          have hES : mE = mS := hinj mE hmE mS hmSmem (hc.trans hmSid.symm)
          rw [hES, hmSst] at hEst
          exact MessageStatus.noConfusion hEst
        exact ⟨mE, updateMessage_mem_of_ne hmE hne, hEid, hEsid, hEst⟩
      · intro e he
        have he' : e ∈ s.streaming_messages := List.mem_of_mem_filter he
        obtain ⟨mE, hmE, hEid, hEsid, hEst⟩ := hstr e he'
        have hne : mE.id ≠ mid := by
          intro hc
          have hES : mE = mS := hinj mE hmE mS hmSmem (hc.trans hmSid.symm)
          have hkey1 : e.1 = sid := by
            rw [hES, hmSsid] at hEsid
            exact (Option.some.inj hEsid).symm
          have hkey := (List.mem_filter.mp he).2
          simp [hkey1] at hkey
        exact ⟨mE, updateMessage_mem_of_ne hmE hne, hEid, hEsid, hEst⟩
    next hex =>
      dsimp only
      exact ⟨hnd, huniq, hpend,
        fun e he => hstr e (List.mem_of_mem_filter he)⟩

theorem wf_fail_message (s : ServiceState) (sid : Nat) (err : String)
    (hwf : Wf s) : Wf (fail_message s sid err).2 := by
  obtain ⟨hnd, huniq, hpend, hstr⟩ := hwf
  have hinj : ∀ a ∈ s.messages, ∀ b ∈ s.messages, a.id = b.id → a = b :=
    fun a ha b hb hab => List.inj_on_of_nodup_map hnd ha hb hab
  unfold fail_message
  split
  next => exact ⟨hnd, huniq, hpend, hstr⟩
  next mid heq =>
    have hmain : ∃ mE ∈ s.messages, mE.id = mid ∧ mE.stream_id = some sid := by
      cases hps : dlookup s.pending_messages sid with
      | some v =>
        rw [hps] at heq
        have hv : v = mid := by
          simpa [Option.orElse] using heq
        obtain ⟨mE, hmE, hEid, hEsid, _⟩ := hpend (sid, v) (dlookup_some_mem _ _ _ hps)
        exact ⟨mE, hmE, hv ▸ hEid, hEsid⟩
      | none =>
        rw [hps] at heq
        have hss : dlookup s.streaming_messages sid = some mid := by
          simpa [Option.orElse] using heq
        obtain ⟨mE, hmE, hEid, hEsid, _⟩ := hstr (sid, mid) (dlookup_some_mem _ _ _ hss)
        exact ⟨mE, hmE, hEid, hEsid⟩
    obtain ⟨mT, hmTmem, hmTid, hmTsid⟩ := hmain
    dsimp only
    refine ⟨?_, ?_, ?_, ?_⟩
    · apply nodup_ids_updateMessage
      · intro m
        rfl
      · exact hnd
    · apply stream_uniq_updateMessage
      · intro m
        rfl
      · intro m
        rfl
      · exact huniq
    · intro e he
      have he' : e ∈ s.pending_messages := List.mem_of_mem_filter he
      obtain ⟨mE, hmE, hEid, hEsid, hEst⟩ := hpend e he'
      have hne : mE.id ≠ mid := by
        intro hc
        have hET : mE = mT := hinj mE hmE mT hmTmem (hc.trans hmTid.symm)
        have hkey1 : e.1 = sid := by
          rw [hET, hmTsid] at hEsid
          exact (Option.some.inj hEsid).symm
        have hkey := (List.mem_filter.mp he).2
        simp [hkey1] at hkey
      exact ⟨mE, updateMessage_mem_of_ne hmE hne, hEid, hEsid, hEst⟩
    · intro e he
      have he' : e ∈ s.streaming_messages := List.mem_of_mem_filter he
      obtain ⟨mE, hmE, hEid, hEsid, hEst⟩ := hstr e he'
      have hne : mE.id ≠ mid := by
        intro hc
        have hET : mE = mT := hinj mE hmE mT hmTmem (hc.trans hmTid.symm)
        have hkey1 : e.1 = sid := by
          rw [hET, hmTsid] at hEsid
          exact (Option.some.inj hEsid).symm
        have hkey := (List.mem_filter.mp he).2
        simp [hkey1] at hkey
      exact ⟨mE, updateMessage_mem_of_ne hmE hne, hEid, hEsid, hEst⟩

/-- Every lifecycle operation preserves well-formedness. -/
theorem wf_runOp (s : ServiceState) (op : LifecycleOp) (hwf : Wf s) :
    Wf (runOp s op).2 := by
  cases op with
  | startStreaming sid => exact wf_start_message_streaming s sid hwf
  | appendChunk sid c => exact wf_update_streaming_message s sid c hwf
  | completeMsg sid f => exact wf_complete_streaming_message s sid f hwf
  | failMsg sid e => exact wf_fail_message s sid e hwf
  | cancelMsg sid => exact wf_fail_message s sid _ hwf

/-! ## Status edges -/

theorem legalStep_refl (a : MessageStatus) : legalStep a a = true := by
  cases a <;> rfl

theorem step_edges_id {l : List Message} (hnd : (l.map (·.id)).Nodup) :
    ∀ m ∈ l, ∀ m' ∈ l, m'.id = m.id → legalStep m.status m'.status = true := by
  intro m hm m' hm' hid
  have : m' = m := List.inj_on_of_nodup_map hnd hm' hm hid
  rw [this]
  exact legalStep_refl _

theorem step_edges_updateMessage {l : List Message} {mid : Nat}
    {f : Message → Message} (hnd : (l.map (·.id)).Nodup)
    (hfid : ∀ m, (f m).id = m.id)
    (hedge : ∀ m ∈ l, m.id = mid → legalStep m.status (f m).status = true) :
    ∀ m ∈ l, ∀ m' ∈ updateMessage l mid f, m'.id = m.id →
      legalStep m.status m'.status = true := by
  intro m hm m' hm' hid
  rcases mem_updateMessage hm' with ⟨a0, ha0, haid, hEq⟩ | ⟨a0, ha0, _, hEq⟩
  · have ha0m : a0.id = m.id := by
      rw [← hid, hEq, hfid]
    have : a0 = m := List.inj_on_of_nodup_map hnd ha0 hm ha0m
    subst this
    rw [hEq]
    exact hedge a0 ha0 haid
  · have : a0 = m := List.inj_on_of_nodup_map hnd ha0 hm (by rw [← hid, hEq])
    rw [hEq, this]
    exact legalStep_refl _

/-- Under well-formedness, terminal messages' stream ids are untracked. -/
theorem untracked_of_terminal (s : ServiceState) (hwf : Wf s) {m : Message}
    (hm : m ∈ s.messages) (ht : isTerminal m.status = true) {sid : Nat}
    (hsid : m.stream_id = some sid) : Untracked s sid := by
  obtain ⟨hnd, huniq, hpend, hstr⟩ := hwf
  constructor
  · cases hps : dlookup s.pending_messages sid with
    | none => rfl
    | some mid =>
      exfalso
      obtain ⟨mE, hmE, hEid, hEsid, hEst⟩ :=
        hpend (sid, mid) (dlookup_some_mem _ _ _ hps)
      have hid : m.id = mE.id := huniq m hm mE hmE sid hsid hEsid
      have hEq : m = mE := List.inj_on_of_nodup_map hnd hm hmE hid
      rw [hEq, hEst] at ht
      simp [isTerminal] at ht
  · cases hps : dlookup s.streaming_messages sid with
    | none => rfl
    | some mid =>
      exfalso
      obtain ⟨mE, hmE, hEid, hEsid, hEst⟩ :=
        hstr (sid, mid) (dlookup_some_mem _ _ _ hps)
      have hid : m.id = mE.id := huniq m hm mE hmE sid hsid hEsid
      have hEq : m = mE := List.inj_on_of_nodup_map hnd hm hmE hid
      rw [hEq, hEst] at ht
      simp [isTerminal] at ht

theorem edges_runOp (s : ServiceState) (op : LifecycleOp) (hwf : Wf s) :
    ∀ m ∈ s.messages, ∀ m' ∈ (runOp s op).2.messages,
      m'.id = m.id → legalStep m.status m'.status = true := by
  obtain ⟨hnd, huniq, hpend, hstr⟩ := hwf
  have hinj : ∀ a ∈ s.messages, ∀ b ∈ s.messages, a.id = b.id → a = b :=
    fun a ha b hb hab => List.inj_on_of_nodup_map hnd ha hb hab
  cases op with
  | startStreaming sid =>
    simp only [runOp]
    unfold start_message_streaming
    split
    next => exact step_edges_id hnd
    next mid heq =>
      split
      next hex =>
        obtain ⟨mP, hmPmem, hmPid, hmPsid, hmPst⟩ :=
          hpend (sid, mid) (dlookup_some_mem _ _ _ heq)
        dsimp only
        apply step_edges_updateMessage hnd
        · intro m
          rfl
        · intro m hm hmid
          have : m = mP := hinj m hm mP hmPmem (hmid.trans hmPid.symm)
          rw [this, hmPst]
          rfl
      next hex => exact step_edges_id hnd
  | appendChunk sid c =>
    simp only [runOp]
    unfold update_streaming_message
    split
    next => exact step_edges_id hnd
    next mid heq =>
      split
      next => exact step_edges_id hnd
      next doc hdoc =>
        dsimp only
        apply step_edges_updateMessage hnd
        · intro m
          rfl
        · intro m hm hmid
          exact legalStep_refl _
  | completeMsg sid f =>
    simp only [runOp]
    unfold complete_streaming_message
    split
    next => exact step_edges_id hnd
    next mid heq =>
      obtain ⟨mS, hmSmem, hmSid, hmSsid, hmSst⟩ :=
        hstr (sid, mid) (dlookup_some_mem _ _ _ heq)
      split
      next hex =>
        dsimp only
        apply step_edges_updateMessage hnd
        · intro m
          rfl
        · intro m hm hmid
          have : m = mS := hinj m hm mS hmSmem (hmid.trans hmSid.symm)
          rw [this, hmSst]
          rfl
      next hex => exact step_edges_id hnd
  | failMsg sid e =>
    simp only [runOp]
    unfold fail_message
    split
    next => exact step_edges_id hnd
    next mid heq =>
      have hmain : ∃ mE ∈ s.messages, mE.id = mid ∧
          (mE.status = .pending ∨ mE.status = .streaming) := by
        cases hps : dlookup s.pending_messages sid with
        | some v =>
          rw [hps] at heq
          have hv : v = mid := by
            simpa [Option.orElse] using heq
          obtain ⟨mE, hmE, hEid, _, hEst⟩ := hpend (sid, v) (dlookup_some_mem _ _ _ hps)
          exact ⟨mE, hmE, hv ▸ hEid, Or.inl hEst⟩
        | none =>
          rw [hps] at heq
          have hss : dlookup s.streaming_messages sid = some mid := by
            simpa [Option.orElse] using heq
          obtain ⟨mE, hmE, hEid, _, hEst⟩ := hstr (sid, mid) (dlookup_some_mem _ _ _ hss)
          exact ⟨mE, hmE, hEid, Or.inr hEst⟩
      obtain ⟨mT, hmTmem, hmTid, hmTst⟩ := hmain
      dsimp only
      apply step_edges_updateMessage hnd
      · intro m
        rfl
      · intro m hm hmid
        have hmT : m = mT := hinj m hm mT hmTmem (hmid.trans hmTid.symm)
        rcases hmTst with hst | hst <;> rw [hmT, hst] <;> rfl
  | cancelMsg sid =>
    simp only [runOp]
    unfold cancel_generation fail_message
    split
    next => exact step_edges_id hnd
    next mid heq =>
      have hmain : ∃ mE ∈ s.messages, mE.id = mid ∧
          (mE.status = .pending ∨ mE.status = .streaming) := by
        cases hps : dlookup s.pending_messages sid with
        | some v =>
          rw [hps] at heq
          have hv : v = mid := by
            simpa [Option.orElse] using heq
          obtain ⟨mE, hmE, hEid, _, hEst⟩ := hpend (sid, v) (dlookup_some_mem _ _ _ hps)
          exact ⟨mE, hmE, hv ▸ hEid, Or.inl hEst⟩
        | none =>
          rw [hps] at heq
          have hss : dlookup s.streaming_messages sid = some mid := by
            simpa [Option.orElse] using heq
          obtain ⟨mE, hmE, hEid, _, hEst⟩ := hstr (sid, mid) (dlookup_some_mem _ _ _ hss)
          exact ⟨mE, hmE, hEid, Or.inr hEst⟩
      obtain ⟨mT, hmTmem, hmTid, hmTst⟩ := hmain
      dsimp only
      apply step_edges_updateMessage hnd
      · intro m
        rfl
      · intro m hm hmid
        have hmT : m = mT := hinj m hm mT hmTmem (hmid.trans hmTid.symm)
        rcases hmTst with hst | hst <;> rw [hmT, hst] <;> rfl

/-- C1: from any well-formed service state, each Message Lifecycle Engine
operation (start, append, complete, fail, cancel) (i) preserves
well-formedness — so the property propagates along every operation
sequence — (ii) moves every message's status only along the §4.1 edges
PENDING→STREAMING, STREAMING→{COMPLETE, FAILED, CANCELLED},
PENDING→{FAILED, CANCELLED} (or leaves it unchanged), and (iii) is a strict
no-op returning false when invoked with the stream id of a message already
in a terminal status. -/
theorem C1_lifecycle_transitions (s : ServiceState) (op : LifecycleOp)
    (hwf : Wf s) :
    Wf (runOp s op).2
      ∧ (∀ m ∈ s.messages, ∀ m' ∈ (runOp s op).2.messages,
          m'.id = m.id → legalStep m.status m'.status = true)
      ∧ (∀ m ∈ s.messages, isTerminal m.status = true →
          m.stream_id = some (opStreamId op) → runOp s op = (false, s)) := by
  refine ⟨wf_runOp s op hwf, edges_runOp s op hwf, ?_⟩
  intro m hm ht hsid
  have hun : Untracked s (opStreamId op) := untracked_of_terminal s hwf hm ht hsid
  cases op with
  | startStreaming sid =>
    exact start_message_streaming_untracked s sid hun.1
  | appendChunk sid c =>
    exact update_streaming_message_untracked s sid c hun.2
  | completeMsg sid f =>
    exact complete_streaming_message_untracked s sid f hun.2
  | failMsg sid e =>
    exact fail_message_untracked s sid e hun
  | cancelMsg sid =>
    exact fail_message_untracked s sid _ hun

/-- Witness for C1 at the concrete in-flight state `cexStreaming`
(message 11 streaming on stream 10) under a `complete` operation. -/
theorem C1_lifecycle_transitions_witness :
    Wf cexStreaming
      ∧ (Wf (runOp cexStreaming (.completeMsg 10 "done")).2
        ∧ (∀ m ∈ cexStreaming.messages,
            ∀ m' ∈ (runOp cexStreaming (.completeMsg 10 "done")).2.messages,
            m'.id = m.id → legalStep m.status m'.status = true)
        ∧ (∀ m ∈ cexStreaming.messages, isTerminal m.status = true →
            m.stream_id = some (opStreamId (.completeMsg 10 "done")) →
            runOp cexStreaming (.completeMsg 10 "done") = (false, cexStreaming))) :=
  ⟨by unfold Wf; decide, C1_lifecycle_transitions cexStreaming (.completeMsg 10 "done") (by unfold Wf; decide)⟩

/-! ## Single-step facts about `update_streaming_message` and `fail_message` -/

theorem findMessage_some_of_exists {l : List Message} {mid : Nat}
    (h : messageExists l mid = true) : ∃ doc, findMessage l mid = some doc := by
  simp only [messageExists, List.any_eq_true] at h
  obtain ⟨m, hm, hid⟩ := h
  have : (l.find? (fun m => m.id == mid)).isSome = true :=
    List.find?_isSome.mpr ⟨m, hm, hid⟩
  obtain ⟨doc, hdoc⟩ := Option.isSome_iff_exists.mp this
  exact ⟨doc, hdoc⟩

theorem findMessage_updateMessage {l : List Message} {mid : Nat}
    {f : Message → Message} (hf : ∀ m, (f m).id = m.id) :
    findMessage (updateMessage l mid f) mid = (findMessage l mid).map f := by
  induction l with
  | nil => rfl
  | cons a l ih =>
    by_cases h : a.id = mid
    · simp [findMessage, updateMessage, h, hf] at ih ⊢
    · simp only [findMessage, updateMessage, List.map_cons] at ih ⊢
      rw [if_neg (by simp [h]), List.find?_cons_of_neg _ (by simp [h]),
        List.find?_cons_of_neg _ (by simp [h])]
      exact ih

theorem messageExists_updateMessage {l : List Message} {mid0 : Nat}
    {f : Message → Message} (hf : ∀ m, (f m).id = m.id) (mid : Nat) :
    messageExists (updateMessage l mid0 f) mid = messageExists l mid := by
  induction l with
  | nil => rfl
  | cons a l ih =>
    simp only [messageExists, updateMessage, List.map_cons, List.any_cons] at ih ⊢
    by_cases h : a.id = mid0
    · rw [if_pos (by simp [h]), hf, ih]
    · rw [if_neg (by simp [h]), ih]

theorem update_streaming_step (s : ServiceState) (sid mid : Nat) (c : String)
    (hs : dlookup s.streaming_messages sid = some mid)
    (hex : messageExists s.messages mid = true) :
    (update_streaming_message s sid c).2.pending_messages = s.pending_messages
      ∧ (update_streaming_message s sid c).2.streaming_messages
          = s.streaming_messages
      ∧ messageExists (update_streaming_message s sid c).2.messages mid = true
      ∧ partialContentOf (update_streaming_message s sid c).2 mid
          = (partialContentOf s mid).map (fun pc => pc ++ c)
      ∧ statusOf (update_streaming_message s sid c).2 mid = statusOf s mid := by
  obtain ⟨doc, hdoc⟩ := findMessage_some_of_exists hex
  unfold update_streaming_message
  simp only [hs]
  simp only [hdoc]
  refine ⟨trivial, trivial, ?_, ?_, ?_⟩
  · rw [messageExists_updateMessage]
    · exact hex
    · intro m
      rfl
  · unfold partialContentOf
    rw [findMessage_updateMessage]
    · rw [hdoc]
      rfl
    · intro m
      rfl
  · unfold statusOf
    rw [findMessage_updateMessage]
    · rw [hdoc]
      rfl
    · intro m
      rfl

theorem applyChunks_step (cs : List String) (s : ServiceState) (sid mid : Nat)
    (hs : dlookup s.streaming_messages sid = some mid)
    (hex : messageExists s.messages mid = true) :
    (applyChunks s sid cs).pending_messages = s.pending_messages
      ∧ (applyChunks s sid cs).streaming_messages = s.streaming_messages
      ∧ messageExists (applyChunks s sid cs).messages mid = true
      ∧ partialContentOf (applyChunks s sid cs) mid
          = (partialContentOf s mid).map
              (fun pc => cs.foldl (fun a c => a ++ c) pc) := by
  induction cs generalizing s with
  | nil =>
    refine ⟨rfl, rfl, hex, ?_⟩
    show partialContentOf s mid = _
    cases partialContentOf s mid with
    | none => rfl
    | some pc => rfl
  | cons c cs ih =>
    obtain ⟨h1, h2, h3, h4, _⟩ := update_streaming_step s sid mid c hs hex
    have hs' : dlookup (update_streaming_message s sid c).2.streaming_messages sid
        = some mid := by rw [h2]; exact hs
    obtain ⟨g1, g2, g3, g4⟩ := ih (update_streaming_message s sid c).2 hs' h3
    refine ⟨by rw [show applyChunks s sid (c :: cs)
        = applyChunks (update_streaming_message s sid c).2 sid cs from rfl, g1, h1],
      by rw [show applyChunks s sid (c :: cs)
        = applyChunks (update_streaming_message s sid c).2 sid cs from rfl, g2, h2],
      by rw [show applyChunks s sid (c :: cs)
        = applyChunks (update_streaming_message s sid c).2 sid cs from rfl]; exact g3,
      ?_⟩
    rw [show applyChunks s sid (c :: cs)
      = applyChunks (update_streaming_message s sid c).2 sid cs from rfl, g4, h4]
    cases partialContentOf s mid <;> rfl

theorem fail_message_step (s : ServiceState) (sid mid : Nat) (err : String)
    (hp : dlookup s.pending_messages sid = none)
    (hs : dlookup s.streaming_messages sid = some mid)
    (hex : messageExists s.messages mid = true) :
    statusOf (fail_message s sid err).2 mid = some .failed
      ∧ contentOf (fail_message s sid err).2 mid = some ("Error: " ++ err)
      ∧ partialContentOf (fail_message s sid err).2 mid = partialContentOf s mid := by
  obtain ⟨doc, hdoc⟩ := findMessage_some_of_exists hex
  unfold fail_message
  simp only [hp, hs, Option.orElse]
  refine ⟨?_, ?_, ?_⟩
  · unfold statusOf
    rw [findMessage_updateMessage]
    · rw [hdoc]
      rfl
    · intro m
      rfl
  · unfold contentOf
    rw [findMessage_updateMessage]
    · rw [hdoc]
      rfl
    · intro m
      rfl
  · unfold partialContentOf
    rw [findMessage_updateMessage]
    · rw [hdoc]
      rfl
    · intro m
      rfl

theorem not_mem_filter_ne (sid : Nat) (ag : List Nat) :
    sid ∉ ag.filter (fun x => x != sid) := by
  intro h
  have := (List.mem_filter.mp h).2
  simp at this

/-- C2 amended: the user's cancel command (`handle_cancel_generation`) runs
`fail_message` on a freshly constructed service whose tracking dicts are
empty, so it returns False and persists nothing — the store is unchanged
and only the stream id is dropped from `active_generations`. If the engine
produces no further event the message is never terminated; at the next
engine event the orchestrator's loop observes the dropped id and fails the
message on its live service, leaving final status FAILED (the code never
writes CANCELLED) with display content equal to the bare notice
`"Error: Generation cancelled"` — the k applied chunks are preserved only
in the `partial_content` buffer — after which any further chunk or
completion for the stream id is rejected (returns false) and mutates
nothing. -/
theorem C2_cancel_amended (s : ServiceState) (sid mid : Nat) (cs : List String)
    (ag : List Nat) (e : GenEvent) (rest : List GenEvent) (ending : StreamEnd)
    (hag : sid ∈ ag)
    (hp : dlookup s.pending_messages sid = none)
    (hs : dlookup s.streaming_messages sid = some mid)
    (hex : messageExists s.messages mid = true) :
    handle_cancel_generation (applyChunks s sid cs) sid ag
        = (false, applyChunks s sid cs, ag.filter (fun x => x != sid))
      ∧ orchLoop sid [] .exhausted (applyChunks s sid cs)
            (ag.filter (fun x => x != sid))
          = (applyChunks s sid cs, ag.filter (fun x => x != sid))
      ∧ orchLoop sid (e :: rest) ending (applyChunks s sid cs)
            (ag.filter (fun x => x != sid))
          = ((cancel_generation (applyChunks s sid cs) sid).2,
              ag.filter (fun x => x != sid))
      ∧ statusOf (cancel_generation (applyChunks s sid cs) sid).2 mid = some .failed
      ∧ contentOf (cancel_generation (applyChunks s sid cs) sid).2 mid
          = some "Error: Generation cancelled"
      ∧ partialContentOf (cancel_generation (applyChunks s sid cs) sid).2 mid
          = (partialContentOf s mid).map (fun pc => cs.foldl (fun a c => a ++ c) pc)
      ∧ (∀ chunk, update_streaming_message
            (cancel_generation (applyChunks s sid cs) sid).2 sid chunk
          = (false, (cancel_generation (applyChunks s sid cs) sid).2))
      ∧ (∀ final, complete_streaming_message
            (cancel_generation (applyChunks s sid cs) sid).2 sid final
          = (false, (cancel_generation (applyChunks s sid cs) sid).2)) := by
  obtain ⟨a1, a2, a3, a4⟩ := applyChunks_step cs s sid mid hs hex
  have hp' : dlookup (applyChunks s sid cs).pending_messages sid = none := by
    rw [a1]
    exact hp
  have hs' : dlookup (applyChunks s sid cs).streaming_messages sid = some mid := by
    rw [a2]
    exact hs
  obtain ⟨f1, f2, f3⟩ :=
    fail_message_step (applyChunks s sid cs) sid mid
      "Generation cancelled" hp' hs' a3
  have hunt := untracked_after_fail (applyChunks s sid cs) sid
    "Generation cancelled"
  have hnot : sid ∉ ag.filter (fun x => x != sid) := not_mem_filter_ne sid ag
  refine ⟨?_, rfl, ?_, f1, f2,
    by rw [show cancel_generation (applyChunks s sid cs) sid
        = fail_message (applyChunks s sid cs) sid "Generation cancelled"
        from rfl, f3, a4],
    fun chunk => update_streaming_message_untracked _ _ _ hunt.2,
    fun final => complete_streaming_message_untracked _ _ _ hunt.2⟩
  · unfold handle_cancel_generation
    rw [if_pos hag]
    rfl
  · show orchLoop sid (e :: rest) ending _ _ = _
    unfold orchLoop
    rw [if_neg hnot]
    rfl

/-- Witness for C2's amended claim at the concrete scenario: stream 10,
message 11, the chunks `"Fine "` and `"1000"` applied, the cancel command
arriving while `[10]` is the active-generation set, and the engine then
producing one further chunk `"500"`. -/
theorem C2_cancel_amended_witness :
    (10 ∈ [10]
        ∧ dlookup cexStreaming.pending_messages 10 = none
        ∧ dlookup cexStreaming.streaming_messages 10 = some 11
        ∧ messageExists cexStreaming.messages 11 = true)
      ∧ (handle_cancel_generation
            (applyChunks cexStreaming 10 ["Fine ", "1000"]) 10 [10]
          = (false, applyChunks cexStreaming 10 ["Fine ", "1000"],
              [10].filter (fun x => x != 10))
        ∧ orchLoop 10 [] .exhausted
              (applyChunks cexStreaming 10 ["Fine ", "1000"])
              ([10].filter (fun x => x != 10))
            = (applyChunks cexStreaming 10 ["Fine ", "1000"],
                [10].filter (fun x => x != 10))
        ∧ orchLoop 10 (GenEvent.chunk "500" :: []) .exhausted
              (applyChunks cexStreaming 10 ["Fine ", "1000"])
              ([10].filter (fun x => x != 10))
            = ((cancel_generation
                  (applyChunks cexStreaming 10 ["Fine ", "1000"]) 10).2,
                [10].filter (fun x => x != 10))
        ∧ statusOf (cancel_generation
            (applyChunks cexStreaming 10 ["Fine ", "1000"]) 10).2 11
              = some .failed
        ∧ contentOf (cancel_generation
            (applyChunks cexStreaming 10 ["Fine ", "1000"]) 10).2 11
              = some "Error: Generation cancelled"
        ∧ partialContentOf (cancel_generation
            (applyChunks cexStreaming 10 ["Fine ", "1000"]) 10).2 11
              = (partialContentOf cexStreaming 11).map
                  (fun pc => ["Fine ", "1000"].foldl (fun a c => a ++ c) pc)
        ∧ (∀ chunk, update_streaming_message (cancel_generation
            (applyChunks cexStreaming 10 ["Fine ", "1000"]) 10).2 10 chunk
          = (false, (cancel_generation
            (applyChunks cexStreaming 10 ["Fine ", "1000"]) 10).2))
        ∧ (∀ final, complete_streaming_message (cancel_generation
            (applyChunks cexStreaming 10 ["Fine ", "1000"]) 10).2 10 final
          = (false, (cancel_generation
            (applyChunks cexStreaming 10 ["Fine ", "1000"]) 10).2))) :=
  ⟨⟨by decide, rfl, rfl, rfl⟩,
    C2_cancel_amended cexStreaming 10 11 ["Fine ", "1000"] [10]
      (GenEvent.chunk "500") [] .exhausted (by decide) rfl rfl rfl⟩

/-- C4 amended: regenerating an existing message M (version v) in a chat the
caller owns yields a new message N with version v+1, parent id M.id,
attached to a freshly created active branch, M's prior content appended to
N's edit history, and M's child list extended with N.id — but N's status is
keyed on M's role, not on whether `newContent` was supplied: COMPLETE when M
is a user/system message, PENDING when M is an assistant message, in both
cases regardless of `newContent`. -/
theorem C4_regenerate_amended (s : ServiceState) (mid uid : Nat)
    (newContent : Option String) (orig : Message)
    (hfind : findMessage s.messages mid = some orig)
    (hchat : (get_chat_session s orig.chat_session_id uid).isSome = true) :
    ∃ n s', regenerate_message s mid uid newContent = .ok (n, s')
      ∧ n.version = orig.version + 1
      ∧ n.parent_message_id = some orig.id
      ∧ n.conversation_branch = some
          { branch_id := s.next_id
            parent_message_id := some orig.id
            branch_reason := "user_regeneration"
            is_active_branch := true }
      ∧ n.edit_history = orig.edit_history
          ++ [{ version := orig.version, content := orig.content }]
      ∧ n.status = (if orig.role == .assistant then .pending else .complete)
      ∧ n.content = pyOr newContent orig.content
      ∧ (∃ m' ∈ s'.messages, m'.id = orig.id ∧ n.id ∈ m'.child_message_ids) := by
  have horigmem : orig ∈ s.messages := List.mem_of_find?_eq_some hfind
  unfold regenerate_message
  simp only [hfind]
  cases hc : get_chat_session s orig.chat_session_id uid with
  | none =>
    rw [hc] at hchat
    simp at hchat
  | some c =>
    simp only [hc]
    refine ⟨_, _, rfl, rfl, rfl, rfl, rfl, rfl, rfl, ?_⟩
    refine ⟨{ orig with child_message_ids :=
        orig.child_message_ids ++ [s.next_id + 1] }, ?_, rfl, ?_⟩
    · exact List.mem_append_left _
        (updateMessage_mem_of_eq horigmem rfl)
    · simp

/-- Witness for C4's amended claim: regenerating the completed assistant
message 3 of `cexRegenBase` with new content supplied. -/
theorem C4_regenerate_amended_witness :
    (findMessage cexRegenBase.messages 3 = some cexAssistantDone
        ∧ (get_chat_session cexRegenBase
            cexAssistantDone.chat_session_id 7).isSome = true)
      ∧ (∃ n s', regenerate_message cexRegenBase 3 7 (some "please redo")
            = .ok (n, s')
        ∧ n.version = cexAssistantDone.version + 1
        ∧ n.parent_message_id = some cexAssistantDone.id
        ∧ n.conversation_branch = some
            { branch_id := cexRegenBase.next_id
              parent_message_id := some cexAssistantDone.id
              branch_reason := "user_regeneration"
              is_active_branch := true }
        ∧ n.edit_history = cexAssistantDone.edit_history
            ++ [{ version := cexAssistantDone.version
                  content := cexAssistantDone.content }]
        ∧ n.status = (if cexAssistantDone.role == .assistant
            then .pending else .complete)
        ∧ n.content = pyOr (some "please redo") cexAssistantDone.content
        ∧ (∃ m' ∈ s'.messages, m'.id = cexAssistantDone.id
            ∧ n.id ∈ m'.child_message_ids)) :=
  ⟨⟨rfl, rfl⟩,
    C4_regenerate_amended cexRegenBase 3 7 (some "please redo")
      cexAssistantDone rfl rfl⟩

/-! ## Active-branch bookkeeping -/

theorem branchIdOf_setBranchActive (m : Message) (b : Bool) :
    branchIdOf (setBranchActive m b) = branchIdOf m := by
  cases h : m.conversation_branch <;> simp [branchIdOf, setBranchActive, h]

theorem branchActive_setBranchActive_false (m : Message) :
    branchActive (setBranchActive m false) = false := by
  cases h : m.conversation_branch <;> simp [branchActive, setBranchActive, h]

theorem chat_setBranchActive (m : Message) (b : Bool) :
    (setBranchActive m b).chat_session_id = m.chat_session_id := rfl

theorem mem_activeBranchIds {s : ServiceState} {c b : Nat} :
    b ∈ activeBranchIds s c ↔ ∃ m ∈ s.messages,
      m.chat_session_id = c ∧ branchActive m = true ∧ branchIdOf m = some b := by
  unfold activeBranchIds
  rw [List.mem_dedup, List.mem_filterMap]
  constructor
  · rintro ⟨m, hm, hf⟩
    by_cases h : (m.chat_session_id == c && branchActive m) = true
    · rw [if_pos h] at hf
      simp only [Bool.and_eq_true, beq_iff_eq] at h
      exact ⟨m, hm, h.1, h.2, hf⟩
    · rw [if_neg h] at hf
      exact Option.noConfusion hf
  · rintro ⟨m, hm, h1, h2, h3⟩
    refine ⟨m, hm, ?_⟩
    rw [if_pos (by simp [h1, h2])]
    exact h3

theorem atMostOne_of_pairwise {s : ServiceState} {c : Nat}
    (h : ∀ a ∈ activeBranchIds s c, ∀ b ∈ activeBranchIds s c, a = b) :
    atMostOneActiveBranch s c = true := by
  unfold atMostOneActiveBranch
  apply decide_eq_true
  cases hl : activeBranchIds s c with
  | nil => simp
  | cons x t =>
    have hx : ∀ y ∈ activeBranchIds s c, y = x :=
      fun y hy => h y hy x (by rw [hl]; exact List.mem_cons_self _ _)
    cases t with
    | nil => simp
    | cons z t2 =>
      exfalso
      have hz : z = x := hx z (by rw [hl]; simp)
      have hnd : (activeBranchIds s c).Nodup := List.nodup_dedup _
      rw [hl, hz] at hnd
      simp at hnd

theorem all_eq_of_atMostOne {s : ServiceState} {c : Nat}
    (h : atMostOneActiveBranch s c = true) :
    ∀ a ∈ activeBranchIds s c, ∀ b ∈ activeBranchIds s c, a = b := by
  unfold atMostOneActiveBranch at h
  have h' := of_decide_eq_true h
  intro a ha b hb
  cases hl : activeBranchIds s c with
  | nil =>
    rw [hl] at ha
    cases ha
  | cons x t =>
    rw [hl] at ha hb h'
    cases t with
    | nil =>
      simp at ha hb
      rw [ha, hb]
    | cons z t2 => simp at h'

theorem switch_msg_bid {l : List Message} {chat bid : Nat} {m : Message}
    (hm : m ∈ (l.map (fun m => if m.chat_session_id == chat
        then setBranchActive m false else m)).map
      (fun m => if m.chat_session_id == chat && branchIdOf m == some bid
        then setBranchActive m true else m))
    (hchat : m.chat_session_id = chat) (hact : branchActive m = true) :
    branchIdOf m = some bid := by
  obtain ⟨m1, hm1, hact_eq⟩ := List.mem_map.mp hm
  obtain ⟨m0, hm0, hdeact_eq⟩ := List.mem_map.mp hm1
  by_cases hcond : (m1.chat_session_id == chat && branchIdOf m1 == some bid) = true
  · rw [if_pos hcond] at hact_eq
    have hb1 : branchIdOf m1 = some bid := by
      have := (Bool.and_eq_true _ _).mp hcond
      simpa using this.2
    rw [← hact_eq, branchIdOf_setBranchActive, hb1]
  · rw [if_neg hcond] at hact_eq
    exfalso
    by_cases hc0 : (m0.chat_session_id == chat) = true
    · rw [if_pos hc0] at hdeact_eq
      rw [← hact_eq, ← hdeact_eq, branchActive_setBranchActive_false] at hact
      exact Bool.noConfusion hact
    · rw [if_neg hc0] at hdeact_eq
      rw [← hact_eq, ← hdeact_eq] at hchat
      rw [hchat] at hc0
      simp at hc0

theorem switch_msg_other {l : List Message} {chat bid c : Nat} {m : Message}
    (hm : m ∈ (l.map (fun m => if m.chat_session_id == chat
        then setBranchActive m false else m)).map
      (fun m => if m.chat_session_id == chat && branchIdOf m == some bid
        then setBranchActive m true else m))
    (hchat : m.chat_session_id = c) (hne : c ≠ chat) : m ∈ l := by
  obtain ⟨m1, hm1, hact_eq⟩ := List.mem_map.mp hm
  obtain ⟨m0, hm0, hdeact_eq⟩ := List.mem_map.mp hm1
  have hchat1 : m1.chat_session_id = c := by
    by_cases hcond : (m1.chat_session_id == chat && branchIdOf m1 == some bid) = true
    · rw [if_pos hcond] at hact_eq
      rw [← hact_eq, chat_setBranchActive] at hchat
      exact hchat
    · rw [if_neg hcond] at hact_eq
      rw [← hact_eq] at hchat
      exact hchat
  have hchat0 : m0.chat_session_id = c := by
    by_cases hc0 : (m0.chat_session_id == chat) = true
    · rw [if_pos hc0] at hdeact_eq
      rw [← hdeact_eq, chat_setBranchActive] at hchat1
      exact hchat1
    · rw [if_neg hc0] at hdeact_eq
      rw [← hdeact_eq] at hchat1
      exact hchat1
  have hm1id : m1 = m0 := by
    rw [← hdeact_eq, if_neg (by simp [hchat0, hne])]
  have hmid : m = m1 := by
    rw [← hact_eq, if_neg (by simp [hm1id, hchat0, hne])]
  rw [hmid, hm1id]
  exact hm0

theorem create_msg_active {l : List Message} {pchat pts : Nat} {m : Message}
    (hm : m ∈ l.map (fun m =>
      if m.chat_session_id == pchat && decide (pts < m.timestamp) && branchActive m
      then setBranchActive m false else m))
    (hact : branchActive m = true) : m ∈ l := by
  obtain ⟨m0, hm0, hmap⟩ := List.mem_map.mp hm
  by_cases hcond : (m0.chat_session_id == pchat && decide (pts < m0.timestamp)
      && branchActive m0) = true
  · rw [if_pos hcond] at hmap
    rw [← hmap, branchActive_setBranchActive_false] at hact
    exact Bool.noConfusion hact
  · rw [if_neg hcond] at hmap
    rw [← hmap]
    exact hm0

/-- C5 amended: `switch_conversation_branch` always leaves the switched chat
with at most one active branch id and preserves the invariant for every
other chat, and `create_conversation_branch` (which only deactivates
branches) preserves it everywhere; but `regenerate_message` activates its
fresh branch without deactivating the current one, so it guarantees the
invariant only for chats that had no active branch — as the counterexample
shows, a second regeneration breaks it. -/
theorem C5_active_branch_amended (s : ServiceState) :
    (∀ chat bid uid b s',
        switch_conversation_branch s chat bid uid = .ok (b, s') →
        atMostOneActiveBranch s' chat = true
          ∧ (∀ c, c ≠ chat → atMostOneActiveBranch s c = true →
              atMostOneActiveBranch s' c = true))
      ∧ (∀ pmid uid bid s',
          create_conversation_branch s pmid uid = .ok (bid, s') →
          ∀ c, atMostOneActiveBranch s c = true →
            atMostOneActiveBranch s' c = true)
      ∧ (∀ mid uid nc n s',
          regenerate_message s mid uid nc = .ok (n, s') →
          ∀ c, activeBranchIds s c = [] →
            atMostOneActiveBranch s' c = true) := by
  refine ⟨?_, ?_, ?_⟩
  · intro chat bid uid b s' hok
    unfold switch_conversation_branch at hok
    cases hcs : get_chat_session s chat uid with
    | none =>
      rw [hcs] at hok
      exact Except.noConfusion hok
    | some c0 =>
      simp only [hcs, Except.ok.injEq, Prod.mk.injEq] at hok
      obtain ⟨hb, hs'⟩ := hok
      subst hs'
      constructor
      · apply atMostOne_of_pairwise
        intro a ha b2 hb2
        rw [mem_activeBranchIds] at ha hb2
        obtain ⟨m, hm, hchat, hact, hbid⟩ := ha
        obtain ⟨m', hm', hchat', hact', hbid'⟩ := hb2
        have h1 : branchIdOf m = some bid := switch_msg_bid hm hchat hact
        have h2 : branchIdOf m' = some bid := switch_msg_bid hm' hchat' hact'
        rw [h1] at hbid
        rw [h2] at hbid'
        rw [← Option.some.inj hbid, ← Option.some.inj hbid']
      · intro c hne hc
        apply atMostOne_of_pairwise
        intro a ha b2 hb2
        rw [mem_activeBranchIds] at ha hb2
        obtain ⟨m, hm, hchat, hact, hbid⟩ := ha
        obtain ⟨m', hm', hchat', hact', hbid'⟩ := hb2
        refine all_eq_of_atMostOne hc a ?_ b2 ?_
        · rw [mem_activeBranchIds]
          exact ⟨m, switch_msg_other hm hchat hne, hchat, hact, hbid⟩
        · rw [mem_activeBranchIds]
          exact ⟨m', switch_msg_other hm' hchat' hne, hchat', hact', hbid'⟩
  · intro pmid uid bid s' hok c hc
    unfold create_conversation_branch at hok
    cases hf : findMessage s.messages pmid with
    | none =>
      rw [hf] at hok
      exact Except.noConfusion hok
    | some parent =>
      cases hcs : get_chat_session s parent.chat_session_id uid with
      | none =>
        simp only [hf, hcs] at hok
        exact Except.noConfusion hok
      | some c0 =>
        simp only [hf, hcs, Except.ok.injEq, Prod.mk.injEq] at hok
        obtain ⟨hbid, hs'⟩ := hok
        subst hs'
        apply atMostOne_of_pairwise
        intro a ha b2 hb2
        rw [mem_activeBranchIds] at ha hb2
        obtain ⟨m, hm, hchat, hact, hbid2⟩ := ha
        obtain ⟨m', hm', hchat', hact', hbid2'⟩ := hb2
        refine all_eq_of_atMostOne hc a ?_ b2 ?_
        · rw [mem_activeBranchIds]
          exact ⟨m, create_msg_active hm hact, hchat, hact, hbid2⟩
        · rw [mem_activeBranchIds]
          exact ⟨m', create_msg_active hm' hact', hchat', hact', hbid2'⟩
  · intro mid uid nc n s' hok c hemp
    unfold regenerate_message at hok
    cases hf : findMessage s.messages mid with
    | none =>
      rw [hf] at hok
      exact Except.noConfusion hok
    | some orig =>
      cases hcs : get_chat_session s orig.chat_session_id uid with
      | none =>
        simp only [hf, hcs] at hok
        exact Except.noConfusion hok
      | some c0 =>
        simp only [hf, hcs, Except.ok.injEq, Prod.mk.injEq] at hok
        obtain ⟨hn, hs'⟩ := hok
        subst hs'
        apply atMostOne_of_pairwise
        intro a ha b2 hb2
        have hall : ∀ y, (∃ m ∈ (updateMessage s.messages orig.id (fun m =>
            { m with child_message_ids := m.child_message_ids ++ [s.next_id + 1] })
              ++ [{ id := s.next_id + 1
                    chat_session_id := orig.chat_session_id
                    user_id := uid
                    role := orig.role
                    content := pyOr nc orig.content
                    status := if orig.role == .assistant then .pending else .complete
                    timestamp := s.next_id
                    conversation_branch := some
                      { branch_id := s.next_id
                        parent_message_id := some orig.id
                        branch_reason := "user_regeneration"
                        is_active_branch := true }
                    parent_message_id := some orig.id
                    child_message_ids := []
                    version := orig.version + 1
                    original_message_id := some (orig.original_message_id.getD orig.id)
                    edit_history := orig.edit_history ++
                      [{ version := orig.version, content := orig.content }]
                    stream_id := if orig.role == .assistant
                      then some (s.next_id + 2) else none
                    is_streaming := false
                    partial_content := ""
                    final_content := pyOr nc orig.content }]),
            m.chat_session_id = c ∧ branchActive m = true
              ∧ branchIdOf m = some y) → y = s.next_id := by
          intro y hy
          obtain ⟨m, hm, hchat, hact, hbid2⟩ := hy
          rcases List.mem_append.mp hm with hm | hm
          · exfalso
            have hmem : y ∈ activeBranchIds s c := by
              rw [mem_activeBranchIds]
              rcases mem_updateMessage hm with ⟨a0, ha0, _, hEq⟩ | ⟨a0, ha0, _, hEq⟩ <;>
                · rw [hEq] at hchat hact hbid2
                  exact ⟨a0, ha0, hchat, hact, hbid2⟩
            rw [hemp] at hmem
            cases hmem
          · have hmEq := List.mem_singleton.mp hm
            subst hmEq
            simpa [branchIdOf] using hbid2.symm
        rw [mem_activeBranchIds] at ha hb2
        exact (hall a ha).trans (hall b2 hb2).symm

/-- Witness for C5's amended claim: switching `cexRegen2` — which carries two
active branches 12 and 15 — to branch 12 restores at most one active branch
in chat 1. -/
theorem C5_active_branch_amended_witness :
    switch_conversation_branch cexRegen2 1 12 7 = .ok (true, cexSwitched)
      ∧ atMostOneActiveBranch cexSwitched 1 = true :=
  ⟨rfl,
    ((C5_active_branch_amended cexRegen2).1 1 12 7 true cexSwitched rfl).1⟩

/-! ## Element-level facts about branch switching -/

theorem setBranchActive_setBranchActive (m : Message) (b1 b2 : Bool) :
    setBranchActive (setBranchActive m b1) b2 = setBranchActive m b2 := by
  unfold setBranchActive
  cases h : m.conversation_branch with
  | none => simp [h]
  | some br => simp [h]

theorem conversation_branch_setBranchActive_none (m : Message) (b : Bool) :
    ((setBranchActive m b).conversation_branch = none)
      ↔ (m.conversation_branch = none) := by
  unfold setBranchActive
  cases h : m.conversation_branch <;> simp [h]

theorem branchActive_setBranchActive_true_of_bid {m : Message} {b : Nat}
    (h : branchIdOf m = some b) : branchActive (setBranchActive m true) = true := by
  cases hc : m.conversation_branch with
  | none => simp [branchIdOf, hc] at h
  | some br => simp [branchActive, setBranchActive, hc]

theorem switch_msg_proj (chat bid : Nat) (m : Message) :
    ((fun m => if m.chat_session_id == chat && branchIdOf m == some bid
        then setBranchActive m true else m)
      ((fun m => if m.chat_session_id == chat
        then setBranchActive m false else m) m)).id = m.id
    ∧ ((fun m => if m.chat_session_id == chat && branchIdOf m == some bid
        then setBranchActive m true else m)
      ((fun m => if m.chat_session_id == chat
        then setBranchActive m false else m) m)).chat_session_id
        = m.chat_session_id
    ∧ branchIdOf ((fun m => if m.chat_session_id == chat && branchIdOf m == some bid
        then setBranchActive m true else m)
      ((fun m => if m.chat_session_id == chat
        then setBranchActive m false else m) m)) = branchIdOf m
    ∧ ((fun m => if m.chat_session_id == chat && branchIdOf m == some bid
        then setBranchActive m true else m)
      ((fun m => if m.chat_session_id == chat
        then setBranchActive m false else m) m)).timestamp = m.timestamp := by
  dsimp only
  by_cases h1 : (m.chat_session_id == chat) = true <;>
    [rw [if_pos h1]; rw [if_neg h1]] <;>
    [skip; skip] <;>
  · split <;>
      simp [setBranchActive, branchIdOf, branchActive] <;>
      cases m.conversation_branch <;> simp

theorem switch_filter_eq (chat bid : Nat) (m0 : Message) :
    ((fun m => m.chat_session_id == chat
        && (branchActive m || m.conversation_branch == none))
      ((fun m => if m.chat_session_id == chat && branchIdOf m == some bid
          then setBranchActive m true else m)
        ((fun m => if m.chat_session_id == chat
          then setBranchActive m false else m) m0)))
    = ((fun m => m.chat_session_id == chat
        && (m.conversation_branch == none || branchIdOf m == some bid))
      ((fun m => if m.chat_session_id == chat && branchIdOf m == some bid
          then setBranchActive m true else m)
        ((fun m => if m.chat_session_id == chat
          then setBranchActive m false else m) m0))) := by
  dsimp only
  cases hc : m0.conversation_branch with
  | none =>
    by_cases h1 : (m0.chat_session_id == chat) = true
    · simp [setBranchActive, branchIdOf, branchActive, hc, h1]
    · simp [setBranchActive, branchIdOf, branchActive, hc, h1]
  | some br =>
    by_cases h1 : (m0.chat_session_id == chat) = true
    · by_cases h2 : (br.branch_id == bid) = true
      · simp [setBranchActive, branchIdOf, branchActive, hc, h1, h2]
      · simp [setBranchActive, branchIdOf, branchActive, hc, h1, h2]
    · simp [setBranchActive, branchIdOf, branchActive, hc, h1]

theorem switch_fix (chat bid : Nat) (m0 : Message) :
    ((fun m => if m.chat_session_id == chat && branchIdOf m == some bid
        then setBranchActive m true else m)
      ((fun m => if m.chat_session_id == chat
        then setBranchActive m false else m)
        ((fun m => if m.chat_session_id == chat && branchIdOf m == some bid
          then setBranchActive m true else m)
        ((fun m => if m.chat_session_id == chat
          then setBranchActive m false else m) m0))))
    = ((fun m => if m.chat_session_id == chat && branchIdOf m == some bid
        then setBranchActive m true else m)
      ((fun m => if m.chat_session_id == chat
        then setBranchActive m false else m) m0)) := by
  dsimp only
  cases hc : m0.conversation_branch with
  | none =>
    by_cases h1 : (m0.chat_session_id == chat) = true
    · simp [setBranchActive, branchIdOf, branchActive, hc, h1]
    · simp [setBranchActive, branchIdOf, branchActive, hc, h1]
  | some br =>
    by_cases h1 : (m0.chat_session_id == chat) = true
    · by_cases h2 : (br.branch_id == bid) = true
      · simp [setBranchActive, branchIdOf, branchActive, hc, h1, h2]
      · simp [setBranchActive, branchIdOf, branchActive, hc, h1, h2]
    · simp [setBranchActive, branchIdOf, branchActive, hc, h1]

theorem switch_any_eq (chat bid : Nat) (l : List Message) :
    ((l.map (fun m => if m.chat_session_id == chat
        then setBranchActive m false else m)).any (fun m =>
      m.chat_session_id == chat && branchIdOf m == some bid))
    = (l.any (fun m => m.chat_session_id == chat && branchIdOf m == some bid)) := by
  induction l with
  | nil => rfl
  | cons a t ih =>
    simp only [List.map_cons, List.any_cons, ih]
    congr 1
    by_cases h1 : (a.chat_session_id == chat) = true
    · rw [if_pos h1]
      simp [chat_setBranchActive, branchIdOf_setBranchActive]
    · rw [if_neg h1]

theorem get_chat_session_set_messages (s : ServiceState) (L : List Message)
    (chat uid : Nat) :
    get_chat_session { s with messages := L } chat uid
      = get_chat_session s chat uid := rfl

/-- C6: when some message of the chat carries branch id B, switching to B
returns true; the active view afterwards is exactly the trunk messages
(no branch descriptor) together with the messages carrying B, in timestamp
order; the switch changes nothing but active flags (ids, chat ids, branch
ids and timestamps are untouched); repeating the switch returns true again
and leaves the state fixed; and switching to a branch id carried by no
message of the chat returns false. -/
theorem C6_switch_branch (s : ServiceState) (chat bid uid : Nat)
    (c0 : ChatSession) (hown : get_chat_session s chat uid = some c0)
    (hb : ∃ m ∈ s.messages, m.chat_session_id = chat ∧ branchIdOf m = some bid) :
    ∃ s', switch_conversation_branch s chat bid uid = .ok (true, s')
      ∧ get_active_messages s' chat uid
          = .ok (sortByTimestamp (s'.messages.filter (fun m =>
              m.chat_session_id == chat
                && (m.conversation_branch == none || branchIdOf m == some bid))))
      ∧ s'.messages.map (fun m => (m.id, m.chat_session_id, branchIdOf m, m.timestamp))
          = s.messages.map (fun m => (m.id, m.chat_session_id, branchIdOf m, m.timestamp))
      ∧ switch_conversation_branch s' chat bid uid = .ok (true, s')
      ∧ (∀ bid', (∀ m ∈ s.messages, m.chat_session_id = chat →
            branchIdOf m ≠ some bid') →
          ∃ s'', switch_conversation_branch s chat bid' uid = .ok (false, s'')) := by
  obtain ⟨mw, hmw, hmwchat, hmwbid⟩ := hb
  have hmod : (s.messages.any (fun m =>
      m.chat_session_id == chat && branchIdOf m == some bid)) = true :=
    List.any_eq_true.mpr ⟨mw, hmw, by simp [hmwchat, hmwbid]⟩
  have h1 : ∃ t, switch_conversation_branch s chat bid uid = .ok (true, t) := by
    unfold switch_conversation_branch
    simp only [hown]
    rw [switch_any_eq, hmod]
    exact ⟨_, rfl⟩
  obtain ⟨s', hs1⟩ := h1
  have hform := hs1
  unfold switch_conversation_branch at hform
  simp only [hown] at hform
  rw [switch_any_eq, hmod] at hform
  simp only [Except.ok.injEq, Prod.mk.injEq, true_and] at hform
  subst hform
  refine ⟨_, hs1, ?_, ?_, ?_, ?_⟩
  · unfold get_active_messages
    simp only [get_chat_session_set_messages, hown]
    have hfilter : ((s.messages.map (fun m =>
          if m.chat_session_id == chat then setBranchActive m false else m)).map
        (fun m => if m.chat_session_id == chat && branchIdOf m == some bid
          then setBranchActive m true else m)).filter
        (fun m => m.chat_session_id == chat
          && (branchActive m || m.conversation_branch == none))
        = ((s.messages.map (fun m =>
          if m.chat_session_id == chat then setBranchActive m false else m)).map
        (fun m => if m.chat_session_id == chat && branchIdOf m == some bid
          then setBranchActive m true else m)).filter
        (fun m => m.chat_session_id == chat
          && (m.conversation_branch == none || branchIdOf m == some bid)) := by
      apply List.filter_congr
      intro m hm
      obtain ⟨m1, hm1, hEq1⟩ := List.mem_map.mp hm
      obtain ⟨m0, hm0, hEq0⟩ := List.mem_map.mp hm1
      rw [← hEq1, ← hEq0]
      exact switch_filter_eq chat bid m0
    rw [hfilter]
  · simp only [List.map_map]
    apply List.map_congr_left
    intro a _
    obtain ⟨p1, p2, p3, p4⟩ := switch_msg_proj chat bid a
    simp only [Function.comp, Prod.mk.injEq]
    exact ⟨p1, p2, p3, p4⟩
  · unfold switch_conversation_branch
    simp only [get_chat_session_set_messages, hown]
    rw [switch_any_eq]
    obtain ⟨q1, q2, q3, q4⟩ := switch_msg_proj chat bid mw
    rw [show (((s.messages.map (fun m =>
          if m.chat_session_id == chat then setBranchActive m false else m)).map
        (fun m => if m.chat_session_id == chat && branchIdOf m == some bid
          then setBranchActive m true else m)).any (fun m =>
        m.chat_session_id == chat && branchIdOf m == some bid)) = true from
      List.any_eq_true.mpr ⟨_,
        List.mem_map_of_mem _ (List.mem_map_of_mem _ hmw), by
        rw [Bool.and_eq_true]
        exact ⟨by rw [q2, hmwchat]; simp, by rw [q3, hmwbid]; simp⟩⟩]
    have hfix : ((((s.messages.map (fun m =>
          if m.chat_session_id == chat then setBranchActive m false else m)).map
        (fun m => if m.chat_session_id == chat && branchIdOf m == some bid
          then setBranchActive m true else m)).map (fun m =>
            if m.chat_session_id == chat then setBranchActive m false else m)).map
          (fun m => if m.chat_session_id == chat && branchIdOf m == some bid
            then setBranchActive m true else m))
        = ((s.messages.map (fun m =>
          if m.chat_session_id == chat then setBranchActive m false else m)).map
        (fun m => if m.chat_session_id == chat && branchIdOf m == some bid
          then setBranchActive m true else m)) := by
      simp only [List.map_map]
      apply List.map_congr_left
      intro a _
      exact switch_fix chat bid a
    rw [hfix]
  · intro bid' hnone
    unfold switch_conversation_branch
    simp only [hown]
    rw [switch_any_eq]
    rw [show (s.messages.any (fun m =>
        m.chat_session_id == chat && branchIdOf m == some bid')) = false from by
      rw [List.any_eq_false]
      intro m hm
      by_cases h1 : m.chat_session_id = chat
      · simp [h1, hnone m hm h1]
      · simp [h1]]
    exact ⟨_, rfl⟩

/-- Witness for C6 at `cexRegen1`: chat 1 carries branch 12 on message 13. -/
theorem C6_switch_branch_witness :
    (get_chat_session cexRegen1 1 7 = some chat1
        ∧ (∃ m ∈ cexRegen1.messages, m.chat_session_id = 1
            ∧ branchIdOf m = some 12))
      ∧ (∃ s', switch_conversation_branch cexRegen1 1 12 7 = .ok (true, s')
        ∧ get_active_messages s' 1 7
            = .ok (sortByTimestamp (s'.messages.filter (fun m =>
                m.chat_session_id == 1
                  && (m.conversation_branch == none || branchIdOf m == some 12))))
        ∧ s'.messages.map (fun m => (m.id, m.chat_session_id, branchIdOf m, m.timestamp))
            = cexRegen1.messages.map (fun m =>
                (m.id, m.chat_session_id, branchIdOf m, m.timestamp))
        ∧ switch_conversation_branch s' 1 12 7 = .ok (true, s')
        ∧ (∀ bid', (∀ m ∈ cexRegen1.messages, m.chat_session_id = 1 →
              branchIdOf m ≠ some bid') →
            ∃ s'', switch_conversation_branch cexRegen1 1 bid' 7
              = .ok (false, s''))) :=
  ⟨⟨rfl, by decide⟩, C6_switch_branch cexRegen1 1 12 7 chat1 rfl (by decide)⟩

/-! ## Orchestrator termination facts -/

theorem complete_streaming_step (s : ServiceState) (sid mid : Nat) (fc : String)
    (hs : dlookup s.streaming_messages sid = some mid)
    (hex : messageExists s.messages mid = true) :
    statusOf (complete_streaming_message s sid fc).2 mid = some .complete := by
  obtain ⟨doc, hdoc⟩ := findMessage_some_of_exists hex
  unfold complete_streaming_message
  simp only [hs]
  rw [if_pos hex]
  unfold statusOf
  rw [show findMessage ((true,
      { s with
        streaming_messages := derase s.streaming_messages sid
        messages := updateMessage s.messages mid (fun m =>
          { m with
            status := .complete
            content := fc
            final_content := fc
            is_streaming := false }) }) : Bool × ServiceState).2.messages mid
    = findMessage (updateMessage s.messages mid (fun m =>
      { m with
        status := .complete
        content := fc
        final_content := fc
        is_streaming := false })) mid from rfl]
  rw [findMessage_updateMessage]
  · rw [hdoc]
    rfl
  · intro m
    rfl

theorem start_message_streaming_step (s : ServiceState) (sid mid : Nat)
    (hpend : dlookup s.pending_messages sid = some mid)
    (hex : messageExists s.messages mid = true) :
    (start_message_streaming s sid).2.pending_messages
        = derase s.pending_messages sid
      ∧ (start_message_streaming s sid).2.streaming_messages
        = dinsert s.streaming_messages sid mid
      ∧ messageExists (start_message_streaming s sid).2.messages mid = true := by
  unfold start_message_streaming
  simp only [hpend]
  rw [if_pos hex]
  refine ⟨rfl, rfl, ?_⟩
  rw [show ((true,
      { s with
        messages := updateMessage s.messages mid (fun m =>
          { m with status := .streaming, is_streaming := true })
        pending_messages := derase s.pending_messages sid
        streaming_messages := dinsert s.streaming_messages sid mid }) :
      Bool × ServiceState).2.messages
    = updateMessage s.messages mid (fun m =>
      { m with status := .streaming, is_streaming := true }) from rfl]
  rw [messageExists_updateMessage]
  · exact hex
  · intro m
    rfl

/-- The orchestrator's event loop drives the tracked message to a terminal
status whenever the event sequence contains a terminating event or the
engine raises. -/
theorem orchLoop_terminal (events : List GenEvent) (ending : StreamEnd)
    (sid mid : Nat) (s : ServiceState) (ag : List Nat) (hag : sid ∈ ag)
    (hp : dlookup s.pending_messages sid = none)
    (hs : dlookup s.streaming_messages sid = some mid)
    (hex : messageExists s.messages mid = true)
    (hterm : events.any isTerminalEvent = true ∨ ending = .raised) :
    ∃ st, statusOf (orchLoop sid events ending s ag).1 mid = some st
      ∧ isTerminal st = true := by
  induction events generalizing s with
  | nil =>
    rcases hterm with hterm | hterm
    · simp [isTerminalEvent] at hterm
    · subst hterm
      obtain ⟨f1, _, _⟩ :=
        fail_message_step s sid mid "Generation error: engine exception" hp hs hex
      exact ⟨.failed, f1, rfl⟩
  | cons e rest ih =>
    cases e with
    | chunk t =>
      show ∃ st, statusOf (orchLoop sid (.chunk t :: rest) ending s ag).1 mid
          = some st ∧ isTerminal st = true
      unfold orchLoop
      rw [if_pos hag]
      obtain ⟨u1, u2, u3, _, _⟩ := update_streaming_step s sid mid t hs hex
      refine ih (update_streaming_message s sid t).2 ?_ ?_ u3 ?_
      · rw [u1]
        exact hp
      · rw [u2]
        exact hs
      · rcases hterm with hterm | hterm
        · left
          simpa [isTerminalEvent] using hterm
        · right
          exact hterm
    | complete t =>
      unfold orchLoop
      rw [if_pos hag]
      exact ⟨.complete, complete_streaming_step s sid mid t hs hex, rfl⟩
    | error r =>
      unfold orchLoop
      rw [if_pos hag]
      obtain ⟨f1, _, _⟩ := fail_message_step s sid mid r hp hs hex
      exact ⟨.failed, f1, rfl⟩

/-- C7 amended: for an owned, non-deleted chat, the Generation Orchestrator
leaves the assistant message it creates in a terminal status whenever the
engine's event stream ends in a `complete` or `error` event or is
interrupted by an exception; a stream that is exhausted without any terminal
event, however, falls out of the loop with no finalization — the
counterexample shows the message then stays at STREAMING. -/
theorem C7_orchestrator_amended (s : ServiceState) (chat uid : Nat)
    (c0 : ChatSession) (hown : get_chat_session s chat uid = some c0)
    (events : List GenEvent) (ending : StreamEnd)
    (hterm : events.any isTerminalEvent = true ∨ ending = .raised) :
    ∃ st, statusOf (generate_ai_response_with_streaming s chat uid events ending).1
        (s.next_id + 1) = some st ∧ isTerminal st = true := by
  have hcr : ∃ p, create_pending_message s chat uid .assistant "" = .ok p := by
    unfold create_pending_message
    simp only [hown]
    exact ⟨_, rfl⟩
  obtain ⟨⟨msg, s1⟩, hcr⟩ := hcr
  have hform := hcr
  unfold create_pending_message at hform
  simp only [hown, Except.ok.injEq, Prod.mk.injEq] at hform
  obtain ⟨hmsg, hs1⟩ := hform
  have hmsgid : msg.id = s.next_id + 1 := by
    rw [← hmsg]
  have hmsgsid : msg.stream_id = some s.next_id := by
    rw [← hmsg]
  have hs1p : s1.pending_messages
      = dinsert s.pending_messages s.next_id (s.next_id + 1) := by
    rw [← hs1]
    try rfl
  have hs1m : s1.messages = s.messages ++ [msg] := by
    rw [← hs1, ← hmsg]
    try rfl
  unfold generate_ai_response_with_streaming
  rw [hcr]
  show ∃ st, statusOf (orchLoop (msg.stream_id.getD 0) events ending
      (start_message_streaming s1 (msg.stream_id.getD 0)).2
      [msg.stream_id.getD 0]).1 (s.next_id + 1) = some st
    ∧ isTerminal st = true
  rw [show msg.stream_id.getD 0 = s.next_id from by rw [hmsgsid]; rfl]
  have hpend : dlookup s1.pending_messages s.next_id = some (s.next_id + 1) := by
    rw [hs1p]
    exact dlookup_dinsert_self _ _ _
  have hex1 : messageExists s1.messages (s.next_id + 1) = true := by
    rw [hs1m]
    simp [messageExists, List.any_append, hmsgid]
  obtain ⟨t1, t2, t3⟩ :=
    start_message_streaming_step s1 s.next_id (s.next_id + 1) hpend hex1
  refine orchLoop_terminal events ending s.next_id (s.next_id + 1) _
      [s.next_id] (List.mem_singleton.mpr rfl) ?_ ?_ t3 hterm
  · rw [t1, hs1p]
    exact dlookup_derase_self _ _
  · rw [t2]
    exact dlookup_dinsert_self _ _ _

/-- Witness for C7's amended claim: a chunk followed by a `complete` event
in `baseState`'s chat 1 ends with message 11 in a terminal status. -/
theorem C7_orchestrator_amended_witness :
    (get_chat_session baseState 1 7 = some chat1
        ∧ ([GenEvent.chunk "Fine ", GenEvent.complete "done"].any isTerminalEvent
            = true ∨ StreamEnd.exhausted = StreamEnd.raised))
      ∧ (∃ st, statusOf (generate_ai_response_with_streaming baseState 1 7
          [GenEvent.chunk "Fine ", GenEvent.complete "done"] .exhausted).1
          (baseState.next_id + 1) = some st ∧ isTerminal st = true) :=
  ⟨⟨rfl, Or.inl rfl⟩,
    C7_orchestrator_amended baseState 1 7 chat1 rfl
      [GenEvent.chunk "Fine ", GenEvent.complete "done"] .exhausted (Or.inl rfl)⟩

/-- C8 amended: `create_pending_message` answers the same `ChatNotFound` for
an absent chat, a chat owned by someone else, AND an owned chat whose status
is deleted — a deleted chat is externally indistinguishable from an absent
one, and no code path ever produces a distinct `ChatDeleted` error. -/
theorem C8_chat_errors_amended (s : ServiceState) (chat uid : Nat)
    (role : MessageRole) (content : String)
    (h : ∀ c ∈ s.chat_sessions, c.id = chat → c.user_id ≠ uid ∨ c.status = .deleted) :
    create_pending_message s chat uid role content = .error .chatNotFound
      ∧ (∀ s' chat' uid' role' content',
          create_pending_message s' chat' uid' role' content'
            ≠ Except.error ChatServiceError.chatDeleted) := by
  constructor
  · unfold create_pending_message get_chat_session
    rw [show s.chat_sessions.find? (fun c =>
        c.id == chat && c.user_id == uid && c.status != ChatStatus.deleted)
        = none from List.find?_eq_none.mpr ?_]
    · intro c hc
      by_cases hid : c.id = chat
      · rcases h c hc hid with hu | hd
        · simp [hu]
        · simp [hd]
      · simp [hid]
  · intro s' chat' uid' role' content'
    unfold create_pending_message
    cases hg : get_chat_session s' chat' uid' with
    | none => simp
    | some c0 => simp

/-- Witness for C8's amended claim: the owned but soft-deleted chat of
`cexDeletedChat` yields `ChatNotFound`. -/
theorem C8_chat_errors_amended_witness :
    (∀ c ∈ cexDeletedChat.chat_sessions, c.id = 1 →
        c.user_id ≠ 7 ∨ c.status = .deleted)
      ∧ (create_pending_message cexDeletedChat 1 7 .user "hi"
            = .error .chatNotFound
        ∧ (∀ s' chat' uid' role' content',
            create_pending_message s' chat' uid' role' content'
              ≠ Except.error ChatServiceError.chatDeleted)) :=
  ⟨by decide, C8_chat_errors_amended cexDeletedChat 1 7 .user "hi" (by decide)⟩

/-! ## Fan-out lemmas -/

theorem alookup_ainsert_self {α : Type} (l : List (Nat × α)) (k : Nat) (v : α) :
    alookup (ainsert l k v) k = some v := by
  induction l with
  | nil => simp [ainsert, alookup]
  | cons p l ih =>
    by_cases h : p.1 = k
    · simp only [ainsert, List.filter_cons] at ih ⊢
      simpa [h] using ih
    · simp only [ainsert, List.filter_cons] at ih ⊢
      rw [if_pos (by simp [h]), List.cons_append]
      unfold alookup
      rw [List.find?_cons_of_neg _ (by simp [h])]
      exact ih

theorem alookup_ainsert_ne {α : Type} (l : List (Nat × α)) (k : Nat) (v : α)
    (k' : Nat) (h : k' ≠ k) : alookup (ainsert l k v) k' = alookup l k' := by
  have hkk : (k == k') = false := by
    simp only [beq_eq_false_iff_ne, ne_eq]
    exact fun hk => h hk.symm
  unfold alookup ainsert
  induction l with
  | nil =>
    simp only [List.filter_nil, List.nil_append]
    rw [List.find?_cons_of_neg _ (by simp [hkk])]
  | cons p l ih =>
    simp only [List.filter_cons]
    by_cases hp : p.1 = k
    · rw [if_neg (by simp [hp])]
      rw [show List.find? (fun q => q.1 == k') (p :: l)
          = List.find? (fun q => q.1 == k') l from
        List.find?_cons_of_neg _ (by simp [hp, hkk])]
      exact ih
    · rw [if_pos (by simp [hp]), List.cons_append]
      by_cases hq : p.1 = k'
      · rw [show List.find? (fun q => q.1 == k')
            (p :: (List.filter (fun q => q.1 != k) l ++ [(k, v)])) = some p from
          List.find?_cons_of_pos _ (by simp [hq])]
        rw [show List.find? (fun q => q.1 == k') (p :: l) = some p from
          List.find?_cons_of_pos _ (by simp [hq])]
      · rw [show List.find? (fun q => q.1 == k')
            (p :: (List.filter (fun q => q.1 != k) l ++ [(k, v)]))
            = List.find? (fun q => q.1 == k')
              (List.filter (fun q => q.1 != k) l ++ [(k, v)]) from
          List.find?_cons_of_neg _ (by simp [hq])]
        rw [show List.find? (fun q => q.1 == k') (p :: l)
            = List.find? (fun q => q.1 == k') l from
          List.find?_cons_of_neg _ (by simp [hq])]
        exact ih

theorem send_to_connection_registry (m : ConnManager) (c : Nat) (e : WSEvent) :
    (send_to_connection m c e).active_connections = m.active_connections
      ∧ (send_to_connection m c e).chat_rooms = m.chat_rooms
      ∧ (send_to_connection m c e).connection_users = m.connection_users := by
  unfold send_to_connection
  split
  next => exact ⟨rfl, rfl, rfl⟩
  next t ht =>
    unfold send_text
    split
    next => exact ⟨rfl, rfl, rfl⟩
    next => exact ⟨rfl, rfl, rfl⟩

theorem send_to_connection_sockets_ne (m : ConnManager) (c : Nat) (e : WSEvent)
    (c' : Nat) (h : c' ≠ c) :
    alookup (send_to_connection m c e).sockets c' = alookup m.sockets c' := by
  unfold send_to_connection
  split
  next => rfl
  next t ht =>
    unfold send_text
    split
    next => exact alookup_ainsert_ne _ _ _ _ h
    next => rfl

theorem send_to_connection_sockets_alive (m : ConnManager) (c : Nat)
    (e : WSEvent) (t : Transport) (hl : alookup m.sockets c = some t)
    (ha : t.alive = true) :
    alookup (send_to_connection m c e).sockets c
      = some { t with inbox := t.inbox ++ [e] } := by
  unfold send_to_connection
  simp only [hl]
  unfold send_text
  rw [if_pos ha]
  exact alookup_ainsert_self _ _ _

theorem send_to_connection_dead (m : ConnManager) (c : Nat) (e : WSEvent)
    (t : Transport) (hl : alookup m.sockets c = some t) (ha : t.alive = false) :
    send_to_connection m c e = m := by
  unfold send_to_connection
  simp only [hl]
  unfold send_text
  rw [if_neg (by simp [ha])]

theorem get_user_connection_send_ne (m : ConnManager) (c0 : Nat) (e : WSEvent)
    (u c : Nat) (h : c ≠ c0) :
    get_user_connection (send_to_connection m c0 e) u c
      = get_user_connection m u c := by
  unfold get_user_connection
  rw [(send_to_connection_registry m c0 e).1]
  cases alookup m.active_connections u with
  | none => rfl
  | some conns =>
    by_cases hc : c ∈ conns
    · simp only [if_pos hc]
      exact send_to_connection_sockets_ne m c0 e c h
    · simp only [if_neg hc]

theorem broadcastList_registry (ev : WSEvent) (excl : Option Nat)
    (members : List (Nat × Nat)) (m : ConnManager) :
    (broadcastList m ev excl members).active_connections = m.active_connections
      ∧ (broadcastList m ev excl members).chat_rooms = m.chat_rooms
      ∧ (broadcastList m ev excl members).connection_users = m.connection_users := by
  induction members generalizing m with
  | nil => exact ⟨rfl, rfl, rfl⟩
  | cons p rest ih =>
    obtain ⟨u, c⟩ := p
    unfold broadcastList
    split
    next => exact ih m
    next =>
      cases hg : get_user_connection m u c with
      | none => exact ih m
      | some t =>
        obtain ⟨r1, r2, r3⟩ := ih (send_to_connection m c ev)
        obtain ⟨q1, q2, q3⟩ := send_to_connection_registry m c ev
        exact ⟨r1.trans q1, r2.trans q2, r3.trans q3⟩

theorem broadcastList_sockets_notmem (ev : WSEvent) (excl : Option Nat)
    (members : List (Nat × Nat)) (m : ConnManager) (c : Nat) :
    (∀ p ∈ members, p.2 ≠ c) →
    alookup (broadcastList m ev excl members).sockets c
      = alookup m.sockets c := by
  induction members generalizing m with
  | nil =>
    intro h
    rfl
  | cons p rest ih =>
    intro h
    obtain ⟨u0, c0⟩ := p
    unfold broadcastList
    split
    next => exact ih m (fun p hp => h p (List.mem_cons_of_mem _ hp))
    next =>
      cases hg : get_user_connection m u0 c0 with
      | none => exact ih m (fun p hp => h p (List.mem_cons_of_mem _ hp))
      | some t =>
        rw [ih (send_to_connection m c0 ev)
          (fun p hp => h p (List.mem_cons_of_mem _ hp))]
        exact send_to_connection_sockets_ne m c0 ev c
          (fun hc => h (u0, c0) (List.mem_cons_self _ _) hc.symm)

theorem get_user_connection_sockets {m : ConnManager} {u c : Nat} {t : Transport}
    (h : get_user_connection m u c = some t) : alookup m.sockets c = some t := by
  unfold get_user_connection at h
  cases halo : alookup m.active_connections u with
  | none =>
    rw [halo] at h
    exact Option.noConfusion h
  | some conns =>
    simp only [halo] at h
    by_cases hc : c ∈ conns
    · rwa [if_pos hc] at h
    · rw [if_neg hc] at h
      exact Option.noConfusion h

theorem broadcastList_delivered (ev : WSEvent) (excl : Option Nat)
    (members : List (Nat × Nat)) (m : ConnManager) (u c : Nat) (t : Transport) :
    (members.map (·.2)).Nodup → (u, c) ∈ members → excl ≠ some u →
    get_user_connection m u c = some t → t.alive = true →
    alookup (broadcastList m ev excl members).sockets c
      = some { t with inbox := t.inbox ++ [ev] } := by
  induction members generalizing m with
  | nil =>
    intro _ hmem
    cases hmem
  | cons p rest ih =>
    intro hnd hmem hexcl hreg halive
    obtain ⟨u0, c0⟩ := p
    rw [List.map_cons, List.nodup_cons] at hnd
    obtain ⟨hc0notin, hndrest⟩ := hnd
    rcases List.mem_cons.mp hmem with hEq | hmemr
    · injection hEq with hu hc
      subst hu
      subst hc
      unfold broadcastList
      rw [if_neg (by simp [hexcl])]
      simp only [hreg]
      rw [broadcastList_sockets_notmem ev excl rest _ c (fun p hp hpc =>
        hc0notin (hpc ▸ List.mem_map_of_mem (·.2) hp))]
      exact send_to_connection_sockets_alive m c ev t
        (get_user_connection_sockets hreg) halive
    · have hcne : c ≠ c0 := by
        intro hEq
        exact hc0notin (hEq ▸ List.mem_map_of_mem (·.2) hmemr)
      unfold broadcastList
      split
      next => exact ih m hndrest hmemr hexcl hreg halive
      next =>
        cases hg : get_user_connection m u0 c0 with
        | none => exact ih m hndrest hmemr hexcl hreg halive
        | some t0 =>
          refine ih (send_to_connection m c0 ev) hndrest hmemr hexcl ?_ halive
          rw [get_user_connection_send_ne m c0 ev u c hcne]
          exact hreg

theorem broadcastList_dead (ev : WSEvent) (excl : Option Nat)
    (members : List (Nat × Nat)) (m : ConnManager) (u c : Nat) (t : Transport) :
    (members.map (·.2)).Nodup → (u, c) ∈ members →
    alookup m.sockets c = some t → t.alive = false →
    alookup (broadcastList m ev excl members).sockets c = some t := by
  induction members generalizing m with
  | nil =>
    intro _ hmem
    cases hmem
  | cons p rest ih =>
    intro hnd hmem hsock hdead
    obtain ⟨u0, c0⟩ := p
    rw [List.map_cons, List.nodup_cons] at hnd
    obtain ⟨hc0notin, hndrest⟩ := hnd
    rcases List.mem_cons.mp hmem with hEq | hmemr
    · injection hEq with hu hc
      subst hu
      subst hc
      have hnotin : ∀ p ∈ rest, p.2 ≠ c := fun p hp hpc =>
        hc0notin (hpc ▸ List.mem_map_of_mem (·.2) hp)
      unfold broadcastList
      split
      next =>
        rw [broadcastList_sockets_notmem ev excl rest m c hnotin]
        exact hsock
      next =>
        cases hg : get_user_connection m u c with
        | none =>
          rw [broadcastList_sockets_notmem ev excl rest m c hnotin]
          exact hsock
        | some t0 =>
          have ht0 : t0 = t := by
            have := get_user_connection_sockets hg
            rw [hsock] at this
            exact (Option.some.inj this).symm
          subst ht0
          rw [broadcastList_sockets_notmem ev excl rest _ c hnotin,
            send_to_connection_dead m c ev t0 hsock hdead]
          exact hsock
    · have hcne : c ≠ c0 := by
        intro hEq
        exact hc0notin (hEq ▸ List.mem_map_of_mem (·.2) hmemr)
      unfold broadcastList
      split
      next => exact ih m hndrest hmemr hsock hdead
      next =>
        cases hg : get_user_connection m u0 c0 with
        | none => exact ih m hndrest hmemr hsock hdead
        | some t0 =>
          refine ih (send_to_connection m c0 ev) hndrest hmemr ?_ hdead
          rw [send_to_connection_sockets_ne m c0 ev c hcne]
          exact hsock

/-- C9 amended: a room broadcast swallows sends to failed transports — the
broadcast always returns normally, every other room member with a live
registered connection still receives the event, and the dead connection's
transport is left exactly as it was — but no registry cleanup happens: the
connection registry (`active_connections`, `chat_rooms`,
`connection_users`) is completely unchanged by a broadcast, so the dead
connection remains registered and room-joined. -/
theorem C9_broadcast_amended (m : ConnManager) (chat : Nat) (ev : WSEvent)
    (excl : Option Nat) (members : List (Nat × Nat))
    (hmem : alookup m.chat_rooms chat = some members)
    (hnodup : (members.map (·.2)).Nodup) :
    (broadcast_to_chat m chat ev excl).active_connections = m.active_connections
      ∧ (broadcast_to_chat m chat ev excl).chat_rooms = m.chat_rooms
      ∧ (broadcast_to_chat m chat ev excl).connection_users = m.connection_users
      ∧ (∀ u c t, (u, c) ∈ members → excl ≠ some u →
          get_user_connection m u c = some t → t.alive = true →
          alookup (broadcast_to_chat m chat ev excl).sockets c
            = some { t with inbox := t.inbox ++ [ev] })
      ∧ (∀ u c t, (u, c) ∈ members → alookup m.sockets c = some t →
          t.alive = false →
          alookup (broadcast_to_chat m chat ev excl).sockets c = some t) := by
  unfold broadcast_to_chat
  simp only [hmem]
  obtain ⟨r1, r2, r3⟩ := broadcastList_registry ev excl members m
  exact ⟨r1, r2, r3,
    fun u c t h1 h2 h3 h4 =>
      broadcastList_delivered ev excl members m u c t hnodup h1 h2 h3 h4,
    fun u c t h1 h2 h3 =>
      broadcastList_dead ev excl members m u c t hnodup h1 h2 h3⟩

/-- Witness for C9's amended claim at `cexMgr`: Alice's connection 10 is
dead, Bob's connection 20 is live. -/
theorem C9_broadcast_amended_witness :
    (alookup cexMgr.chat_rooms 5 = some [(1, 10), (2, 20)]
        ∧ ([(1, 10), (2, 20)].map (fun p => p.2)).Nodup)
      ∧ ((broadcast_to_chat cexMgr 5 (.payload 99) none).active_connections
            = cexMgr.active_connections
        ∧ (broadcast_to_chat cexMgr 5 (.payload 99) none).chat_rooms
            = cexMgr.chat_rooms
        ∧ (broadcast_to_chat cexMgr 5 (.payload 99) none).connection_users
            = cexMgr.connection_users
        ∧ (∀ u c t, (u, c) ∈ [(1, 10), (2, 20)] → none ≠ some u →
            get_user_connection cexMgr u c = some t → t.alive = true →
            alookup (broadcast_to_chat cexMgr 5 (.payload 99) none).sockets c
              = some { t with inbox := t.inbox ++ [.payload 99] })
        ∧ (∀ u c t, (u, c) ∈ [(1, 10), (2, 20)] →
            alookup cexMgr.sockets c = some t → t.alive = false →
            alookup (broadcast_to_chat cexMgr 5 (.payload 99) none).sockets c
              = some t)) :=
  ⟨⟨rfl, by decide⟩,
    C9_broadcast_amended cexMgr 5 (.payload 99) none [(1, 10), (2, 20)]
      rfl (by decide)⟩

/-! ## Room membership facts -/

theorem ainsert_ainsert_same {α : Type} (l : List (Nat × α)) (k : Nat)
    (v1 v2 : α) : ainsert (ainsert l k v1) k v2 = ainsert l k v2 := by
  unfold ainsert
  rw [List.filter_append]
  rw [show List.filter (fun p => p.1 != k) [(k, v1)] = [] from by simp]
  rw [List.append_nil, List.filter_filter]
  rw [show List.filter (fun a => a.1 != k && a.1 != k) l
      = List.filter (fun p => p.1 != k) l from
    List.filter_congr (fun a _ => by simp)]

theorem countP_ainsert_self {α : Type} (l : List (Nat × α)) (k : Nat) (v : α) :
    (ainsert l k v).countP (fun p => p.1 == k) = 1 := by
  unfold ainsert
  rw [List.countP_append]
  rw [List.countP_eq_zero.mpr (fun p hp => by
    have h2 := (List.mem_filter.mp hp).2
    simp at h2 ⊢
    exact h2)]
  simp [List.countP_cons]

theorem join_chat_room_fields (m : ConnManager) (chat u c : Nat) :
    (join_chat_room m chat u c).chat_rooms
        = ainsert m.chat_rooms chat
            (ainsert ((alookup m.chat_rooms chat).getD []) u c)
      ∧ (join_chat_room m chat u c).active_connections = m.active_connections
      ∧ (join_chat_room m chat u c).connection_users = m.connection_users := by
  unfold join_chat_room
  split
  next t ht =>
    obtain ⟨r1, r2, r3⟩ := send_to_connection_registry
      { m with
        chat_rooms :=
          ainsert m.chat_rooms chat
            (ainsert ((alookup m.chat_rooms chat).getD []) u c) }
      c (.joined_chat chat)
    exact ⟨r2, r1, r3⟩
  next => exact ⟨rfl, rfl, rfl⟩

/-- C10: joining a room twice with the same identity overwrites the earlier
connection — the room holds exactly one entry for the user, bound to the
most recently joined connection — and a subsequent room broadcast delivers
the event to that latest connection only: the superseded connection's
transport is not written to at all. -/
theorem C10_room_single_connection (m : ConnManager) (chat u c1 c2 : Nat)
    (ev : WSEvent) (hne : c1 ≠ c2)
    (hnodup0 : (((alookup m.chat_rooms chat).getD []).map (·.2)).Nodup)
    (hc1 : ∀ p ∈ (alookup m.chat_rooms chat).getD [], p.2 ≠ c1)
    (hc2 : ∀ p ∈ (alookup m.chat_rooms chat).getD [], p.2 ≠ c2) :
    alookup ((alookup (join_chat_room (join_chat_room m chat u c1) chat u c2
          ).chat_rooms chat).getD []) u = some c2
      ∧ ((alookup (join_chat_room (join_chat_room m chat u c1) chat u c2
          ).chat_rooms chat).getD []).countP (fun p => p.1 == u) = 1
      ∧ (∀ t2, get_user_connection
            (join_chat_room (join_chat_room m chat u c1) chat u c2) u c2
              = some t2 → t2.alive = true →
          alookup (broadcast_to_chat
              (join_chat_room (join_chat_room m chat u c1) chat u c2)
              chat ev none).sockets c2
            = some { t2 with inbox := t2.inbox ++ [ev] })
      ∧ alookup (broadcast_to_chat
            (join_chat_room (join_chat_room m chat u c1) chat u c2)
            chat ev none).sockets c1
          = alookup (join_chat_room (join_chat_room m chat u c1)
              chat u c2).sockets c1 := by
  obtain ⟨j1r, j1a, j1u⟩ := join_chat_room_fields m chat u c1
  obtain ⟨j2r, j2a, j2u⟩ :=
    join_chat_room_fields (join_chat_room m chat u c1) chat u c2
  have hrooms2 : alookup (join_chat_room (join_chat_room m chat u c1)
        chat u c2).chat_rooms chat
      = some (ainsert ((alookup m.chat_rooms chat).getD []) u c2) := by
    rw [j2r, j1r, alookup_ainsert_self, alookup_ainsert_self, Option.getD_some,
      ainsert_ainsert_same]
  have hmem2 : (u, c2) ∈ ainsert ((alookup m.chat_rooms chat).getD []) u c2 :=
    List.mem_append_right _ (List.mem_singleton.mpr rfl)
  have hnodup2 : ((ainsert ((alookup m.chat_rooms chat).getD []) u c2).map
      (·.2)).Nodup := by
    unfold ainsert
    rw [List.map_append]
    rw [List.nodup_append]
    refine ⟨List.Nodup.sublist
      (List.Sublist.map (fun (p : Nat × Nat) => p.2) (List.filter_sublist _)) hnodup0, ?_, ?_⟩
    · exact List.nodup_singleton _
    intro x hx
    obtain ⟨p, hp, hpx⟩ := List.mem_map.mp hx
    simp only [List.map_cons, List.map_nil, List.mem_singleton]
    intro hx2
    exact hc2 p (List.mem_of_mem_filter hp) (by rw [hpx, hx2])
  refine ⟨?_, ?_, ?_, ?_⟩
  · rw [hrooms2]
    exact alookup_ainsert_self _ _ _
  · rw [hrooms2]
    exact countP_ainsert_self _ _ _
  · intro t2 hreg halive
    unfold broadcast_to_chat
    simp only [hrooms2]
    exact broadcastList_delivered ev none _ _ u c2 t2 hnodup2 hmem2
      (by simp) hreg halive
  · unfold broadcast_to_chat
    simp only [hrooms2]
    apply broadcastList_sockets_notmem
    intro p hp
    rcases List.mem_append.mp hp with hp | hp
    · exact hc1 p (List.mem_of_mem_filter hp)
    · rw [List.mem_singleton.mp hp]
      exact fun h => hne h.symm

/-- Witness for C10: user 3 joins room 5 of `cexMgr` on connection 30, then
again on connection 31. -/
theorem C10_room_single_connection_witness :
    (30 ≠ 31
        ∧ (((alookup cexMgr.chat_rooms 5).getD []).map (fun p => p.2)).Nodup
        ∧ (∀ p ∈ (alookup cexMgr.chat_rooms 5).getD [], p.2 ≠ 30)
        ∧ (∀ p ∈ (alookup cexMgr.chat_rooms 5).getD [], p.2 ≠ 31))
      ∧ (alookup ((alookup (join_chat_room (join_chat_room cexMgr 5 3 30) 5 3 31
            ).chat_rooms 5).getD []) 3 = some 31
        ∧ ((alookup (join_chat_room (join_chat_room cexMgr 5 3 30) 5 3 31
            ).chat_rooms 5).getD []).countP (fun p => p.1 == 3) = 1
        ∧ (∀ t2, get_user_connection
              (join_chat_room (join_chat_room cexMgr 5 3 30) 5 3 31) 3 31
                = some t2 → t2.alive = true →
            alookup (broadcast_to_chat
                (join_chat_room (join_chat_room cexMgr 5 3 30) 5 3 31)
                5 (.payload 42) none).sockets 31
              = some { t2 with inbox := t2.inbox ++ [.payload 42] })
        ∧ alookup (broadcast_to_chat
              (join_chat_room (join_chat_room cexMgr 5 3 30) 5 3 31)
              5 (.payload 42) none).sockets 30
            = alookup (join_chat_room (join_chat_room cexMgr 5 3 30)
                5 3 31).sockets 30) :=
  ⟨⟨by decide, by decide, by decide, by decide⟩,
    C10_room_single_connection cexMgr 5 3 30 31 (.payload 42)
      (by decide) (by decide) (by decide) (by decide)⟩
